import Mathlib

/-!
# CallBasicContext: the state container of the call editing screen

A shallow embedding of `src/CallBasicContext.jsx`.

JavaScript values are dynamically typed, so the embedding works over one type
`Val` of values.  Objects are association lists from property names to values;
a thrown JavaScript error is the `Except.error` side of a result.  Side effects
that the specification talks about (invoking the pending `nextAction` closure,
calling `callBasicDispatch`) are returned next to the result as a log.

Numbers are integers (`Val.num`) together with `Val.nan`; the model does not
cover fractional numbers, and where a result depends on the rounding of a
large integer to a double or on a conversion that the model does not compute,
the result is a parameter of the definition.  Values carry no identity: arrays
and objects are compared structurally by `=`, and the strict equality operator
treats two array or object values as two distinct allocations.
-/

set_option autoImplicit false

namespace CallBasicContext

/-! ## Values -/

/-- JavaScript values.  `fn k` is a closure, known only by a tag `k`. -/
inductive Val where
  | undefined
  | null
  | bool (b : Bool)
  | num (n : Int)
  | nan
  | str (s : String)
  | fn (k : Nat)
  | arr (xs : List Val)
  | obj (fs : List (String × Val))

/-- The own properties of an object, in insertion order. -/
abbrev Obj := List (String × Val)

/-- Errors raised by the code. -/
inductive Err where
  /-- A `TypeError` of the runtime (property of `null`, call of a non-function, ...). -/
  | typeError
  /-- A `SyntaxError` of `JSON.parse`. -/
  | syntaxError
  /-- The `Error` thrown by the default branch of the reducer, with `action?.type`. -/
  | unknownActionType (type : Val)
  /-- The `Error` thrown by `initializeAsync` for a wrong `id`/`isNew` pair. -/
  | invalidIdIsNew (id isNew : Val)
  /-- A rejection of the awaited fetch (network failure, abort). -/
  | rejected (reason : Val)

namespace Val

/-- Whether the value is `null` or `undefined`. -/
def isNullish : Val → Bool
  | .undefined => true
  | .null => true
  | _ => false

/-- JavaScript truthiness (`ToBoolean`). -/
def truthy : Val → Bool
  | .undefined => false
  | .null => false
  | .bool b => b
  | .num n => n != 0
  | .nan => false
  | .str s => s != ""
  | .fn _ => true
  | .arr _ => true
  | .obj _ => true

/-- The operator `===`.  `NaN` equals nothing; two array or object values are
two allocations and never identical. -/
def strictEq : Val → Val → Bool
  | .undefined, .undefined => true
  | .null, .null => true
  | .bool a, .bool b => a == b
  | .num a, .num b => a == b
  | .str a, .str b => a == b
  | .fn a, .fn b => a == b
  | _, _ => false

/-- The operator `!==`. -/
def strictNe (a b : Val) : Bool := !(strictEq a b)

end Val

/-- Read of an own property: the first binding of `k`, `undefined` when there is none. -/
def getField (k : String) : Obj → Val
  | [] => .undefined
  | (k', v) :: fs => if k' = k then v else getField k fs

/-- Whether the object has an own property `k`. -/
def hasField (k : String) : Obj → Bool
  | [] => false
  | (k', _) :: fs => if k' = k then true else hasField k fs

/-- Assignment `o[k] = v`: an existing property keeps its place, a new one goes last. -/
def setField (k : String) (v : Val) : Obj → Obj
  | [] => [(k, v)]
  | (k', v') :: fs => if k' = k then (k, v) :: fs else (k', v') :: setField k v fs

namespace Val

/-- Property read `v.k` on a value that is not nullish: objects look the
property up; the property names used by the source are no properties of
primitives, arrays or functions, which yield `undefined`. -/
def prop (v : Val) (k : String) : Val :=
  match v with
  | .obj fs => getField k fs
  | _ => .undefined

/-- Property read `v.k`: a `TypeError` on `null` and `undefined`. -/
def get (v : Val) (k : String) : Except Err Val :=
  if v.isNullish then .error .typeError else .ok (v.prop k)

/-- Optional chaining `v?.k`. -/
def optGet (v : Val) (k : String) : Val :=
  if v.isNullish then .undefined else v.prop k

/-- The receiver of an array method (`filter`, `map`, `slice`, `push`,
`concat`): the elements of an array.  Every other receiver is reported as a
`TypeError`, which is what the runtime raises for a value without the method. -/
def asArray : Val → Except Err (List Val)
  | .arr xs => .ok xs
  | _ => .error .typeError

end Val

/-- The call `xs.filter(cb)` for a callback that may throw: the first throw
aborts the filter. -/
def filterE (cb : Val → Except Err Bool) : List Val → Except Err (List Val)
  | [] => .ok []
  | x :: xs =>
    match cb x with
    | .error e => .error e
    | .ok b =>
      match filterE cb xs with
      | .error e => .error e
      | .ok ys => .ok (if b then x :: ys else ys)

/-- The call `xs.map(cb)` for a callback that may throw. -/
def mapE (cb : Val → Except Err Val) : List Val → Except Err (List Val)
  | [] => .ok []
  | x :: xs =>
    match cb x with
    | .error e => .error e
    | .ok y =>
      match mapE cb xs with
      | .error e => .error e
      | .ok ys => .ok (y :: ys)

/-- The pairs `(key, o[key])` for `key` in `Object.keys(o)`: a `TypeError` on
`null` and `undefined`, the own properties of an object, the indices of an
array, the character indices of a string (by character, which is the UTF-16
indexing on the Basic Multilingual Plane), nothing for other primitives and
for functions. -/
def ownEntries : Val → Except Err (List (String × Val))
  | .undefined => .error .typeError
  | .null => .error .typeError
  | .obj fs => .ok (fs.map (fun kv => (kv.1, getField kv.1 fs)))
  | .arr xs => .ok ((List.range xs.length).zipWith (fun i x => (toString i, x)) xs)
  | .str s => .ok ((List.range s.data.length).zipWith
      (fun i c => (toString i, Val.str (String.singleton c))) s.data)
  | _ => .ok []

/-! ## The helpers imported from `./CallBasicUtil` -/

/-- What the reducer takes as a parameter.  First the list helpers that it
imports from `./CallBasicUtil`, whose source is not part of
`CallBasicContext.jsx`; `updateDetailIndex` rewrites the records of the array
in place and is given as the function from the array before to the array
after.  Then `lengthIsPositive`, the outcome of the test `v.length > 0` on a
value for which the model does not compute it: a function (its `length` is
its number of parameters) and an object whose own `length` is a string, an
array, an object or a function (compared after conversion to a number). -/
structure CallBasicUtil where
  getDetailIndex : List Val → Val → Int
  removeAt : List Val → Int → List Val
  moveAt : List Val → Int → Int → List Val
  updateDetailIndex : List Val → List Val
  lengthIsPositive : Val → Bool

/-- The test `v.length > 0`: a `TypeError` on `null` and `undefined`; the
number of elements of an array and of characters of a string; for an object
its own `length`, converted to a number (`undefined` and `NaN` compare false,
`null` is 0, `true` is 1); for a boolean or a number, which have no `length`,
the comparison `undefined > 0`, which is false. -/
def lengthPositive (u : CallBasicUtil) : Val → Except Err Bool
  | .undefined => .error .typeError
  | .null => .error .typeError
  | .arr xs => .ok (decide (0 < xs.length))
  | .str s => .ok (s != "")
  | .obj fs =>
    match getField "length" fs with
    | .undefined => .ok false
    | .null => .ok false
    | .nan => .ok false
    | .bool b => .ok b
    | .num n => .ok (decide (0 < n))
    | _ => .ok (u.lengthIsPositive (.obj fs))
  | .fn k => .ok (u.lengthIsPositive (.fn k))
  | .bool _ => .ok false
  | .num _ => .ok false
  | .nan => .ok false

/-- What `xs.concat(v)` appends to the elements of `xs`: the elements of `v`
when `v` is an array, `v` itself otherwise. -/
def concatItems : Val → List Val
  | .arr ys => ys
  | v => [v]

/-! ## The reducer -/

/-- The fourteen action tags of the `switch`. -/
inductive ActionTag where
  | dataloaded | reload | nodata
  | discard | discardCancel | discardOk
  | remove | removeCancel | removeOk
  | dataChanged
  | detailRemove | detailAdd | detailUp | detailDown
  deriving DecidableEq, Repr

/-- The `case` labels, in source order. -/
def ActionTag.label : ActionTag → String
  | .dataloaded => "dataloaded"
  | .reload => "reload"
  | .nodata => "nodata"
  | .discard => "discard"
  | .discardCancel => "discardCancel"
  | .discardOk => "discardOk"
  | .remove => "remove"
  | .removeCancel => "removeCancel"
  | .removeOk => "removeOk"
  | .dataChanged => "dataChanged"
  | .detailRemove => "detailRemove"
  | .detailAdd => "detailAdd"
  | .detailUp => "detailUp"
  | .detailDown => "detailDown"

/-- All tags, in source order. -/
def ActionTag.all : List ActionTag :=
  [.dataloaded, .reload, .nodata, .discard, .discardCancel, .discardOk, .remove,
   .removeCancel, .removeOk, .dataChanged, .detailRemove, .detailAdd, .detailUp, .detailDown]

/-- The `switch (action?.type)`: the first `case` whose label is strictly
equal to the scrutinee, `none` for the `default` branch. -/
def ActionTag.ofVal (t : Val) : Option ActionTag :=
  ActionTag.all.find? (fun tag => Val.strictEq t (.str tag.label))

/-- The loop `Object.keys(src).forEach((key) => { ret[key] = src[key]; })`. -/
def assignAll (src : Val) (ret : Obj) : Except Err Obj :=
  match ownEntries src with
  | .error e => .error e
  | .ok es => .ok (es.foldl (fun r kv => setField kv.1 kv.2 r) ret)

/-- The callback `(message) => message.OCE__CallDetail__c !== detailId`. -/
def refersToOther (detailId : Val) (record : Val) : Except Err Bool :=
  match record.get "OCE__CallDetail__c" with
  | .error e => .error e
  | .ok v => .ok (Val.strictNe v detailId)

/-- The reducer `callBasicContextReducer(state, action)`.  The result is the
returned state together with the tags of the closures invoked on the way, or
the error thrown.  A closure is taken to return normally when it is invoked.
The imported helpers are applied to `state.details` when it is an array; for
any other value the `detail...` cases are reported as a `TypeError` (in
`detailAdd` that is the error of `ret.details.slice()`, or of `push` on what
`slice` returns), and so is a `state.discussions` that is no array when
`concat` is called on it. -/
def callBasicContextReducer (u : CallBasicUtil) (state : Obj) (action : Val) :
    Except Err (Obj × List Nat) :=
  match ActionTag.ofVal (action.optGet "type") with
  | some .dataloaded =>
    match assignAll (action.prop "newState") state with
    | .error e => .error e
    | .ok ret => .ok (setField "needInitialize" (.bool false) ret, [])
  | some .reload =>
    .ok (setField "needInitialize" (.bool (!(getField "isNew" state).truthy)) state, [])
  | some .nodata =>
    .ok (setField "forceUnselect" (.bool true) (setField "mainData" .null state), [])
  | some .discard =>
    .ok (setField "nextAction" (action.prop "nextAction")
      (setField "showDiscardConfirm" (.bool true) state), [])
  | some .discardCancel =>
    .ok (setField "nextAction" .null (setField "showDiscardConfirm" (.bool false) state), [])
  | some .discardOk =>
    match getField "nextAction" state with
    | .fn k =>
      .ok (setField "nextAction" .null (setField "showDiscardConfirm" (.bool false) state), [k])
    | _ => .error .typeError
  | some .remove => .ok (setField "showRemoveConfirm" (.bool true) state, [])
  | some .removeCancel => .ok (setField "showRemoveConfirm" (.bool false) state, [])
  | some .removeOk => .ok (setField "showRemoveConfirm" (.bool false) state, [])
  | some .dataChanged =>
    match assignAll (action.prop "newState") state with
    | .error e => .error e
    | .ok ret => .ok (ret, [])
  | some .detailRemove =>
    let detailId := action.prop "detailId"
    match (getField "details" state).asArray with
    | .error e => .error e
    | .ok details =>
      let index := u.getDetailIndex details detailId
      let ret := setField "details"
        (.arr (u.updateDetailIndex (u.removeAt details index))) state
      match (getField "messages" ret).asArray with
      | .error e => .error e
      | .ok messages =>
        match filterE (refersToOther detailId) messages with
        | .error e => .error e
        | .ok messages1 =>
          let ret1 := setField "messages" (.arr messages1) ret
          match (getField "discussions" ret1).asArray with
          | .error e => .error e
          | .ok discussions =>
            match filterE (refersToOther detailId) discussions with
            | .error e => .error e
            | .ok discussions1 => .ok (setField "discussions" (.arr discussions1) ret1, [])
  | some .detailAdd =>
    match (getField "details" state).asArray with
    | .error e => .error e
    | .ok details =>
      let detail := action.prop "detail"
      let discussions := action.prop "discussions"
      let ret := setField "details" (.arr (u.updateDetailIndex (details ++ [detail]))) state
      match lengthPositive u discussions with
      | .error e => .error e
      | .ok positive =>
        if positive then
          match (getField "discussions" ret).asArray with
          | .error e => .error e
          | .ok old =>
            .ok (setField "discussions" (.arr (old ++ concatItems discussions)) ret, [])
        else .ok (ret, [])
  | some .detailUp =>
    let detailId := action.prop "detailId"
    match (getField "details" state).asArray with
    | .error e => .error e
    | .ok details =>
      let index := u.getDetailIndex details detailId
      .ok (setField "details"
        (.arr (u.updateDetailIndex (u.moveAt details index (index - 1)))) state, [])
  | some .detailDown =>
    let detailId := action.prop "detailId"
    match (getField "details" state).asArray with
    | .error e => .error e
    | .ok details =>
      let index := u.getDetailIndex details detailId
      .ok (setField "details"
        (.arr (u.updateDetailIndex (u.moveAt details index (index + 1)))) state, [])
  | none => .error (.unknownActionType (action.optGet "type"))

/-! ## Model of the `./CallBasicUtil` helpers -/

/-- The record with its `OCE__DisplayOrder__c` set to `n`; a value that is not
an object is left as it is. -/
def setDisplayOrder (n : Int) : Val → Val
  | .obj fs => .obj (setField "OCE__DisplayOrder__c" (.num n) fs)
  | v => v

/-- The records numbered `n`, `n + 1`, ... in list order. -/
def reindexFrom : Int → List Val → List Val
  | _, [] => []
  | n, d :: ds => setDisplayOrder n d :: reindexFrom (n + 1) ds

/-- The element at position `a` taken out and put back at position `b`; the
list itself when a position is out of range. -/
def moveAtList {α : Type} (xs : List α) (a b : Nat) : List α :=
  match xs[a]? with
  | some x => if b < xs.length then (xs.eraseIdx a).insertIdx b x else xs
  | none => xs

/-- Modelled from the spec: `getDetailIndex(details, detailId)` of
`./CallBasicUtil`, which is not in `src/`.  The spec gives a detail "an opaque
identifier" and removes and moves details "by id": the position of the first
detail whose `Id` is strictly equal to `detailId`, and `-1` when there is none. -/
def getDetailIndex (details : List Val) (detailId : Val) : Int :=
  let i := details.findIdx (fun d => Val.strictEq (d.prop "Id") detailId)
  if i < details.length then (i : Int) else -1

/-- Modelled from the spec: `removeAt(details, index)` of `./CallBasicUtil`,
which is not in `src/` ("remove-by-id" as a "targeted array operation"): the
array without the element at `index`, the same array when `index` is no
position of it. -/
def removeAt (details : List Val) (index : Int) : List Val :=
  if 0 ≤ index then details.eraseIdx index.toNat else details

/-- Modelled from the spec: `moveAt(details, from, to)` of `./CallBasicUtil`,
which is not in `src/` ("move-by-offset" as a "targeted array operation"): the
array with the element at `from` moved to position `to`, the same array when
one of the two is no position of it. -/
def moveAt (details : List Val) (src dst : Int) : List Val :=
  if 0 ≤ src ∧ 0 ≤ dst then moveAtList details src.toNat dst.toNat else details

/-- Modelled from the spec: `updateDetailIndex(details)` of `./CallBasicUtil`,
which is not in `src/`.  The detail sequence is "re-indexed after every
insert/remove/move": each detail gets its position as `OCE__DisplayOrder__c`,
counted from `base` (the spec does not say whether from 0 or from 1). -/
def updateDetailIndex (base : Int) (details : List Val) : List Val :=
  reindexFrom base details

/-- The helpers as modelled from the spec, numbering details from `base`.
The length test that the model does not compute is no part of that module; it
is set to false here and plays no part when `action.discussions` is an array,
a string, a primitive or an object with a numeric `length`. -/
def specUtil (base : Int) : CallBasicUtil where
  getDetailIndex := getDetailIndex
  removeAt := removeAt
  moveAt := moveAt
  updateDetailIndex := updateDetailIndex base
  lengthIsPositive := fun _ => false

/-! ## Built-ins used by the initializer -/

mutual
/-- The value read back from the JSON text of `v`, for a `v` inside an array
or at the top: `undefined`, functions and `NaN` become `null`. -/
def jsonValue : Val → Val
  | .undefined => .null
  | .fn _ => .null
  | .nan => .null
  | .arr xs => .arr (jsonArray xs)
  | .obj fs => .obj (jsonObject fs)
  | .null => .null
  | .bool b => .bool b
  | .num n => .num n
  | .str s => .str s
/-- The elements of an array, read back from its JSON text. -/
def jsonArray : List Val → List Val
  | [] => []
  | x :: xs => jsonValue x :: jsonArray xs
/-- The properties of an object, read back from its JSON text: a property
whose value is `undefined` or a function is left out. -/
def jsonObject : List (String × Val) → List (String × Val)
  | [] => []
  | (_, .undefined) :: fs => jsonObject fs
  | (_, .fn _) :: fs => jsonObject fs
  | (k, v) :: fs => (k, jsonValue v) :: jsonObject fs
end

/-- The clone `JSON.parse(JSON.stringify(v))`: `JSON.stringify` yields `undefined` for
`undefined` and for a function, which `JSON.parse` rejects with a `SyntaxError`. -/
def jsonRoundTrip : Val → Except Err Val
  | .undefined => .error .syntaxError
  | .fn _ => .error .syntaxError
  | v => .ok (jsonValue v)

/-- The characters that `parseInt` skips in front of the numeral
(`StrWhiteSpaceChar`: white space and line terminators). -/
def isStrWhiteSpace (c : Char) : Bool :=
  let n := c.toNat
  n = 0x9 || n = 0xA || n = 0xB || n = 0xC || n = 0xD || n = 0x20 || n = 0xA0 ||
  n = 0x1680 || (0x2000 ≤ n && n ≤ 0x200A) || n = 0x2028 || n = 0x2029 ||
  n = 0x202F || n = 0x205F || n = 0x3000 || n = 0xFEFF

/-- The number written by a list of decimal digits. -/
def digitsValue (cs : List Char) : Nat :=
  cs.foldl (fun acc c => 10 * acc + (c.toNat - 48)) 0

/-- The bound `2^53`: every integer up to it in absolute value is a number of
the runtime (a double), and is printed as its decimal numeral. -/
def maxExactInt : Nat := 9007199254740992

/-- The call `parseInt(s, 10)` on the characters of a string: white space, an
optional sign, then the longest run of decimal digits; `NaN` when there is no
digit.  The result is `none` when the numeral is beyond `maxExactInt`, where
the runtime rounds it to a double. -/
def parseIntChars (cs : List Char) : Option Val :=
  let body := cs.dropWhile isStrWhiteSpace
  let signed : Bool × List Char :=
    match body with
    | '-' :: r => (true, r)
    | '+' :: r => (false, r)
    | r => (false, r)
  let ds := signed.2.takeWhile Char.isDigit
  if ds.isEmpty then some .nan
  else if digitsValue ds ≤ maxExactInt then
    some (if signed.1 then .num (-(digitsValue ds : Int)) else .num (digitsValue ds))
  else none

mutual
/-- The call `parseInt(v, 10)`, which parses the string form of `v`.  An integer
up to `maxExactInt` parses back from its decimal numeral; `undefined`, `null`,
booleans, `NaN`, functions and objects have a string form that starts with no
digit; an array has the string forms of its elements joined by commas, so that
only its first element counts.  Where the result depends on the rounding of a
large integer to a double (a number or a numeral beyond `maxExactInt`), it is
taken from the parameter `beyond`, applied to the argument.  The model has one
zero: `parseInt` of `-0` is 0. -/
def parseInt (beyond : Val → Val) : Val → Val
  | .num n => if n.natAbs ≤ maxExactInt then .num n else beyond (.num n)
  | .str s =>
    match parseIntChars s.data with
    | some r => r
    | none => beyond (.str s)
  | .arr xs => parseIntHead beyond xs
  | _ => .nan
/-- The result of `parseInt` on the string form of an array with these elements. -/
def parseIntHead (beyond : Val → Val) : List Val → Val
  | [] => .nan
  | x :: _ => parseInt beyond x
end

/-- The operator `a ?? b`. -/
def coalesce (a b : Val) : Val := if a.isNullish then b else a

/-- Assignment `o.k = v` in strict mode: a `TypeError` on `null`, `undefined`
and primitives.  The receivers of the source are records; an array or a
function as receiver is outside the model and reported in the same way. -/
def Val.assign (o : Val) (k : String) (v : Val) : Except Err Val :=
  match o with
  | .obj fs => .ok (.obj (setField k v fs))
  | _ => .error .typeError

/-- The object spread of `v` (an object literal holding `...v`): the own
properties of an object, the indexed elements of an array or string, nothing
for any other value. -/
def spread : Val → Obj
  | .obj fs => fs
  | .arr xs => (List.range xs.length).zipWith (fun i x => (toString i, x)) xs
  | .str s => (List.range s.data.length).zipWith
      (fun i c => (toString i, Val.str (String.singleton c))) s.data
  | _ => []

/-! ## The initializer -/

/-- The collaborators of `initializeAsync` that live outside
`CallBasicContext.jsx`. -/
structure Env where
  /-- The awaited result of `getDetailAsync` for an `id` and a `callLayoutKey`. -/
  getDetailAsync : Val → Val → Except Err Val
  /-- The value of `oceip.userInfo.userId`. -/
  userId : Val
  /-- The value of `getToDoRecordTypeId(ComplianceTypes.Mid)`. -/
  midRecordTypeId : Val
  /-- The value of `getToDoRecordTypeId(ComplianceTypes.Eppv)`. -/
  eppvRecordTypeId : Val
  /-- The function `DateTimeUtility.parseApiDateTime`. -/
  parseApiDateTime : Val → Val
  /-- The function `ApiUtil.convertApiIntegerToString`. -/
  convertApiIntegerToString : Val → Val
  /-- The value of `EditStates.View`. -/
  editStateView : Val
  /-- The value of `EditStates.Edit`. -/
  editStateEdit : Val
  /-- The instance `new CallDateValidator(getMaximumCallDate(), getFutureCallLimit())`. -/
  callDateValidator : Val
  /-- The instance `new NumericboxIntRangeValidator(lo, hi)`. -/
  numericboxIntRangeValidator : Int → Int → Val
  /-- The value of `UiUtil.guid()`. -/
  guid : Val
  /-- The string of `window.oceip.OCE__LogACallSettings__c.OCE__DurationPicklist__c`. -/
  defaultDuration : Val
  /-- The value of `parseInt(v, 10)` where the model does not compute it: for a
  number or a numeral beyond `maxExactInt`, which the runtime rounds. -/
  parseIntBeyondExact : Val → Val

/-- The function `getMainDateValidators()`. -/
def getMainDateValidators (env : Env) : Val :=
  .obj [("callDateTime", .arr [env.callDateValidator])]

/-- The function `getItemDateValidators()`. -/
def getItemDateValidators (env : Env) : Val :=
  .obj [("OCE__Quantity__c", .arr [env.numericboxIntRangeValidator 0 999999999999999])]

/-- The closure stored as `attendeesComparers.attendees`. -/
def attendeesComparer : Val := .fn 0

/-- The closure stored as `employeeAttendeesComparers.employeeAttendees`. -/
def employeeAttendeesComparer : Val := .fn 1

/-- The function `createNewCallAsync(params)`, returning `newState`. -/
def createNewCallAsync (env : Env) (params : Val) : Except Err Obj :=
  match params.get "territory" with
  | .error e => .error e
  | .ok territory =>
    let callData : Obj :=
      [("Id", env.guid),
       ("OCE__Account__c", params.prop "accountId"),
       ("callDateTime", params.prop "callDateTime"),
       ("OCE__Channel__c", .arr [.str "Face To Face"]),
       ("OCE__DurationPicklist__c", .arr [env.defaultDuration]),
       ("OCE__Territory__c", params.prop "territory"),
       ("OCE__Status__c", .str "Draft"),
       ("OCE__Account__r", .obj [("Name", params.prop "accountName"), ("type", .str "Account")]),
       ("OCE__ParentCall__c", .null),
       ("OCE__Location__c", params.prop "locationId"),
       ("OCE__LocationName__c", params.prop "locationName"),
       ("OCE__Location__r", .obj
         [("OCE__AddressLine1__c", params.prop "locationAddressLine1"),
          ("OCE__AddressLine2__c", params.prop "locationAddressLine2"),
          ("OCE__AddressLine3__c", params.prop "locationAddressLine3"),
          ("OCE__AddressLine4__c", params.prop "locationAddressLine4"),
          ("OCE__City__c", params.prop "locationCity"),
          ("OCE__ZipCode__c", params.prop "locationZipCode"),
          ("OCE__State__c", params.prop "locationState"),
          ("OCE__Country__c", params.prop "locationCountry")]),
       ("OCE__NextCallObjective__c", .str ""),
       ("type", .str "OCE__Call__c")]
    .ok
      [("status", .str "Draft"),
       ("readOnly", .bool false),
       ("editState", env.editStateEdit),
       ("OCE__Territory__c", territory),
       ("isOwner", .bool true),
       ("mainData", .obj callData),
       ("originalMainData", .obj []),
       ("mainDataValidators", getMainDateValidators env),
       ("attendees", .arr []),
       ("originalAttendees", .arr []),
       ("attendeesComparers", .obj [("attendees", attendeesComparer)]),
       ("employeeAttendees", .arr []),
       ("originalEmployeeAttendees", .arr []),
       ("employeeAttendeesComparers", .obj [("employeeAttendees", employeeAttendeesComparer)]),
       ("items", .arr []),
       ("itemValidators", getItemDateValidators env),
       ("originalItems", .arr []),
       ("details", .arr []),
       ("originalDetails", .arr []),
       ("messages", .arr []),
       ("originalMessages", .arr []),
       ("discussions", .arr []),
       ("originalDiscussions", .arr []),
       ("compliances", .arr []),
       ("originalCompliances", .arr []),
       ("complianceValidationResults", .arr [])]

/-- The callback `(r) => r.RecordTypeId === recordTypeId`. -/
def hasRecordType (recordTypeId : Val) (r : Val) : Except Err Bool :=
  match r.get "RecordTypeId" with
  | .error e => .error e
  | .ok t => .ok (Val.strictEq t recordTypeId)

/-- The value given to a multi-select field: `[v]` for a truthy `v`, `[]` otherwise. -/
def toSelection (v : Val) : Val :=
  if v.truthy then .arr [v] else .arr []

/-- The statement `if (o.k) o.k = [o.k]; else o.k = [];`. -/
def selectField (k : String) (fs : Obj) : Obj :=
  setField k (toSelection (getField k fs)) fs

/-- The statement `if (o.k === null) o.k = '';`. -/
def blankIfNull (k : String) (fs : Obj) : Obj :=
  if Val.strictEq (getField k fs) .null then setField k (.str "") fs else fs

/-- The callback that reshapes an attendee. -/
def attendeeOf (attendee : Val) : Except Err Val :=
  match attendee.get "Id" with
  | .error e => .error e
  | .ok id =>
    match (attendee.prop "OCE__Account__r").get "Name" with
    | .error e => .error e
    | .ok name =>
      .ok (.obj [("id", id), ("OCE__Account__c", attendee.prop "OCE__Account__c"),
        ("name", name)])

/-- The callback that reshapes an employee attendee. -/
def employeeOf (employee : Val) : Except Err Val :=
  match employee.get "Id" with
  | .error e => .error e
  | .ok id =>
    match (employee.prop "OCE__User__r").get "Name" with
    | .error e => .error e
    | .ok name =>
      .ok (.obj [("id", id), ("OCE__User__c", employee.prop "OCE__User__c"), ("name", name)])

/-- The callback that reshapes a promotional item. -/
def itemOf (env : Env) (item : Val) : Except Err Val :=
  match item.get "Id" with
  | .error e => .error e
  | .ok id =>
    let quantity := env.convertApiIntegerToString (coalesce (item.prop "OCE__Quantity__c") (.num 0))
    let named : Except Err Val :=
      if (item.prop "OCE__Item__c").truthy then (item.prop "OCE__Item__r").get "Name"
      else .ok .null
    match named with
    | .error e => .error e
    | .ok name =>
      .ok (.obj [("id", id), ("OCE__Product__c", item.prop "OCE__Product__c"),
        ("OCE__Quantity__c", quantity), ("OCE__Item__c", item.prop "OCE__Item__c"),
        ("name", name)])

/-- The callback that reshapes a message. -/
def messageOf (v : Val) : Val :=
  .obj (selectField "OCE__CustomReaction__c" (selectField "OCE__Reaction__c" (spread v)))

/-- The callback that reshapes a discussion. -/
def discussionOf (v : Val) : Val :=
  .obj (selectField "OCE__Topic__c" (blankIfNull "OCE__Notes__c" (spread v)))

/-- The callback that reshapes a compliance record. -/
def complianceOf (v : Val) : Val :=
  .obj (selectField "OCE__SurveyType__c" (spread v))

/-- The callback that reshapes a detail. -/
def detailOf (env : Env) (v : Val) : Val :=
  .obj (setField "OCE__DisplayOrder__c"
    (parseInt env.parseIntBeyondExact (getField "OCE__DisplayOrder__c" (spread v)))
    (spread v))

/-- The object `originalData` built from the clone of the fetched bundle. -/
def originalDataOf (env : Env) (cloneData : Val) : Except Err Val :=
  match cloneData.get "call" with
  | .error e => .error e
  | .ok cloneCall =>
    match (cloneData.prop "compliances").asArray with
    | .error e => .error e
    | .ok compliances =>
      match filterE (hasRecordType env.eppvRecordTypeId) compliances with
      | .error e => .error e
      | .ok eppv =>
        match filterE (hasRecordType env.midRecordTypeId) compliances with
        | .error e => .error e
        | .ok mid =>
          .ok (.obj
            [("OCE__Call__c", cloneCall),
             ("OCE__Call__c.group", cloneData.prop "attendees"),
             ("OCE__CallEmployeeAttendee__c", cloneData.prop "employees"),
             ("OCE__CallDetail__c", cloneData.prop "details"),
             ("OCE__CallMessage__c", cloneData.prop "messages"),
             ("OCE__CallItem__c", cloneData.prop "items"),
             ("OCE__CallDiscussion__c", cloneData.prop "discussions"),
             ("OCE__CallToDo__c.EPPV", .arr eppv),
             ("OCE__CallToDo__c.MID", .arr mid)])

/-- The record `callData.call` after the rewrites of the region `main`. -/
def reshapeCall (env : Env) (call : Val) : Except Err Obj :=
  match call.assign "callDateTime" (env.parseApiDateTime (call.prop "OCE__CallDateTime__c")) with
  | .error e => .error e
  | .ok call1 =>
    .ok (blankIfNull "OCE__NextCallObjective__c" (blankIfNull "OCE__PreCallNotes__c"
      (selectField "OCE__DurationPicklist__c" (selectField "OCE__Channel__c" (spread call1)))))

/-- The branch of `initializeAsync` for an existing record, from the fetched
bundle `callData` to `newState`. -/
def loadExisting (env : Env) (callData : Val) : Except Err Obj := do
  let cloneData ← jsonRoundTrip callData
  let originalData ← originalDataOf env cloneData
  let call ← callData.get "call"
  let status ← call.get "OCE__Status__c"
  let readOnly := Val.strictNe status (.str "Draft") ||
    Val.strictNe (call.prop "OwnerId") env.userId
  let editState := if readOnly then env.editStateView else env.editStateEdit
  let territory := call.prop "OCE__Territory__c"
  let isOwner := Val.strictEq (call.prop "OwnerId") env.userId
  let reshaped ← reshapeCall env call
  let mainData := setField "id" (callData.prop "Id") reshaped
  let fetchedAttendees ← (callData.prop "attendees").asArray
  let attendees ← mapE attendeeOf fetchedAttendees
  let fetchedEmployees ← (callData.prop "employees").asArray
  let employeeAttendees ← mapE employeeOf fetchedEmployees
  let fetchedItems ← (callData.prop "items").asArray
  let items ← mapE (itemOf env) fetchedItems
  let originalItems ← jsonRoundTrip (.arr items)
  let fetchedMessages ← (callData.prop "messages").asArray
  let messages := fetchedMessages.map messageOf
  let originalMessages ← jsonRoundTrip (.arr messages)
  let fetchedDiscussions ← (callData.prop "discussions").asArray
  let discussions := fetchedDiscussions.map discussionOf
  let originalDiscussions ← jsonRoundTrip (.arr discussions)
  let fetchedCompliances ← (callData.prop "compliances").asArray
  let compliances := fetchedCompliances.map complianceOf
  let originalCompliances ← jsonRoundTrip (.arr compliances)
  let fetchedDetails ← (callData.prop "details").asArray
  let details := fetchedDetails.map (detailOf env)
  pure
    [("originalData", originalData),
     ("OCE__Status__c", status),
     ("readOnly", .bool readOnly),
     ("editState", editState),
     ("OCE__Territory__c", territory),
     ("isOwner", .bool isOwner),
     ("mainData", .obj mainData),
     ("originalMainData", .obj mainData),
     ("mainDataValidators", getMainDateValidators env),
     ("attendees", .arr attendees),
     ("originalAttendees", .arr attendees),
     ("attendeesComparers", .obj [("attendees", attendeesComparer)]),
     ("employeeAttendees", .arr employeeAttendees),
     ("originalEmployeeAttendees", .arr employeeAttendees),
     ("employeeAttendeesComparers", .obj [("employeeAttendees", employeeAttendeesComparer)]),
     ("items", .arr items),
     ("itemValidators", getItemDateValidators env),
     ("originalItems", originalItems),
     ("messages", .arr messages),
     ("originalMessages", originalMessages),
     ("discussions", .arr discussions),
     ("originalDiscussions", originalDiscussions),
     ("compliances", .arr compliances),
     ("originalCompliances", originalCompliances),
     ("complianceValidationResults", .arr []),
     ("details", .arr details),
     ("originalDetails", .arr fetchedDetails)]

/-- What a run of `initializeAsync` leaves behind: the actions passed to
`callBasicDispatch`, in order, and whether the promise was fulfilled or
rejected with an error. -/
structure Run where
  dispatched : List Val
  outcome : Except Err Unit

/-- The function `initializeAsync`. -/
def initializeAsync (env : Env) (id isNew callLayoutKey params : Val) : Run :=
  let built : Except Err Obj :=
    if id.truthy && !isNew.truthy then
      match env.getDetailAsync id callLayoutKey with
      | .error e => .error e
      | .ok callData => loadExisting env callData
    else if !id.truthy && isNew.truthy then createNewCallAsync env params
    else .error (.invalidIdIsNew id isNew)
  match built with
  | .error e => ⟨[], .error e⟩
  | .ok newState =>
    ⟨[.obj [("type", .str "dataloaded"), ("newState", .obj newState)]], .ok ()⟩

/-! ## Names and example inputs used by the statements -/

/-- The strings of the fourteen action tags, as the dispatch surface lists them. -/
def actionTags : List String :=
  ["dataloaded", "reload", "nodata", "discard", "discardCancel", "discardOk", "remove",
   "removeCancel", "removeOk", "dataChanged", "detailRemove", "detailAdd", "detailUp",
   "detailDown"]

/-- An action object with a `type` and further properties. -/
def mkAction (type : String) (rest : Obj) : Val :=
  .obj (("type", .str type) :: rest)

/-- A detail record with an id and a display order. -/
def mkDetail (id : String) (order : Val) : Val :=
  .obj [("Id", .str id), ("OCE__DisplayOrder__c", order)]

/-- A message or discussion record that refers to a detail. -/
def mkChild (id : String) (detailId : Val) : Val :=
  .obj [("Id", .str id), ("OCE__CallDetail__c", detailId)]

/-- A loaded state with two details, three messages and two discussions. -/
def sampleState : Obj :=
  [("isNew", .bool false),
   ("showDiscardConfirm", .bool false),
   ("needInitialize", .bool false),
   ("mainData", .obj [("Id", .str "c1")]),
   ("details", .arr [mkDetail "d1" (.num 1), mkDetail "d2" (.num 2)]),
   ("messages", .arr [mkChild "m1" (.str "d1"), mkChild "m2" (.str "d2"),
      mkChild "m3" (.str "d1")]),
   ("discussions", .arr [mkChild "s1" (.str "d2"), mkChild "s2" (.str "d1")])]

/-- The top-level collections of the state. -/
def collections : List String :=
  ["attendees", "employeeAttendees", "items", "details", "messages", "discussions",
   "compliances"]

/-- The sample state after detail `d2` has moved up. -/
def sampleStateMoved : Obj :=
  [("isNew", .bool false),
   ("showDiscardConfirm", .bool false),
   ("needInitialize", .bool false),
   ("mainData", .obj [("Id", .str "c1")]),
   ("details", .arr [mkDetail "d2" (.num 1), mkDetail "d1" (.num 2)]),
   ("messages", .arr [mkChild "m1" (.str "d1"), mkChild "m2" (.str "d2"),
      mkChild "m3" (.str "d1")]),
   ("discussions", .arr [mkChild "s1" (.str "d2"), mkChild "s2" (.str "d1")])]

/-- A state as it can come from a load: two details that carry the same
display order. -/
def unorderedState : Obj :=
  [("isNew", .bool false),
   ("details", .arr [mkDetail "d1" (.num 7), mkDetail "d2" (.num 7)]),
   ("messages", .arr []),
   ("discussions", .arr [])]

mutual
/-- Whether a value is JSON data: no `undefined`, `NaN` or function in it. -/
def isJson : Val → Bool
  | .undefined => false
  | .fn _ => false
  | .nan => false
  | .arr xs => isJsonArray xs
  | .obj fs => isJsonObject fs
  | .null => true
  | .bool _ => true
  | .num _ => true
  | .str _ => true
/-- Whether all elements are JSON data. -/
def isJsonArray : List Val → Bool
  | [] => true
  | x :: xs => isJson x && isJsonArray xs
/-- Whether all property values are JSON data. -/
def isJsonObject : List (String × Val) → Bool
  | [] => true
  | (_, v) :: fs => isJson v && isJsonObject fs
end

/-- Whether the value is an object. -/
def Val.isObject : Val → Bool
  | .obj _ => true
  | _ => false

/-- Whether the value is an array whose elements all satisfy `p`. -/
def Val.isArrayOf (p : Val → Bool) : Val → Bool
  | .arr xs => xs.all p
  | _ => false

/-- The elements of an array, none for any other value. -/
def Val.elems : Val → List Val
  | .arr xs => xs
  | _ => []

/-- An attendee that the initializer can reshape: it and its `OCE__Account__r`
are not nullish. -/
def attendeeOk (a : Val) : Bool :=
  !a.isNullish && !(a.prop "OCE__Account__r").isNullish

/-- An employee that the initializer can reshape: it and its `OCE__User__r`
are not nullish. -/
def employeeOk (e : Val) : Bool :=
  !e.isNullish && !(e.prop "OCE__User__r").isNullish

/-- An item that the initializer can reshape: it is not nullish, and neither is
its `OCE__Item__r` when `OCE__Item__c` is truthy. -/
def itemOk (x : Val) : Bool :=
  !x.isNullish && (!(x.prop "OCE__Item__c").truthy || !(x.prop "OCE__Item__r").isNullish)

/-- A compliance record whose JSON clone is not `null`. -/
def complianceOk : Val → Bool
  | .undefined => false
  | .null => false
  | .nan => false
  | .fn _ => false
  | _ => true

/-- A fetched bundle on which the existing-record branch of `initializeAsync`
runs to its end: `call` is a record, and the seven lists are arrays whose
elements can be read as the branch reads them. -/
def wellFormedBundle (callData : Val) : Bool :=
  (callData.prop "call").isObject &&
  (callData.prop "attendees").isArrayOf attendeeOk &&
  (callData.prop "employees").isArrayOf employeeOk &&
  (callData.prop "items").isArrayOf itemOk &&
  (callData.prop "messages").isArrayOf (fun _ => true) &&
  (callData.prop "discussions").isArrayOf (fun _ => true) &&
  (callData.prop "compliances").isArrayOf complianceOk &&
  (callData.prop "details").isArrayOf (fun _ => true)

/-- The reshaped attendee, when it can be read. -/
def attendeeRecord (a : Val) : Val :=
  .obj [("id", a.prop "Id"), ("OCE__Account__c", a.prop "OCE__Account__c"),
    ("name", (a.prop "OCE__Account__r").prop "Name")]

/-- The reshaped employee attendee, when it can be read. -/
def employeeRecord (e : Val) : Val :=
  .obj [("id", e.prop "Id"), ("OCE__User__c", e.prop "OCE__User__c"),
    ("name", (e.prop "OCE__User__r").prop "Name")]

/-- The reshaped item, when it can be read. -/
def itemRecord (env : Env) (x : Val) : Val :=
  .obj [("id", x.prop "Id"), ("OCE__Product__c", x.prop "OCE__Product__c"),
    ("OCE__Quantity__c",
      env.convertApiIntegerToString (coalesce (x.prop "OCE__Quantity__c") (.num 0))),
    ("OCE__Item__c", x.prop "OCE__Item__c"),
    ("name", if (x.prop "OCE__Item__c").truthy then (x.prop "OCE__Item__r").prop "Name"
      else .null)]

/-- The record `mainData` built from the fetched bundle. -/
def mainDataOf (env : Env) (callData : Val) : Obj :=
  setField "id" (callData.prop "Id")
    (blankIfNull "OCE__NextCallObjective__c" (blankIfNull "OCE__PreCallNotes__c"
      (selectField "OCE__DurationPicklist__c" (selectField "OCE__Channel__c"
        (setField "callDateTime"
          (env.parseApiDateTime ((callData.prop "call").prop "OCE__CallDateTime__c"))
          (spread (callData.prop "call")))))))

/-- The object `originalData` built from the fetched bundle. -/
def originalDataRecord (env : Env) (callData : Val) : Val :=
  .obj
    [("OCE__Call__c", (jsonValue callData).prop "call"),
     ("OCE__Call__c.group", (jsonValue callData).prop "attendees"),
     ("OCE__CallEmployeeAttendee__c", (jsonValue callData).prop "employees"),
     ("OCE__CallDetail__c", (jsonValue callData).prop "details"),
     ("OCE__CallMessage__c", (jsonValue callData).prop "messages"),
     ("OCE__CallItem__c", (jsonValue callData).prop "items"),
     ("OCE__CallDiscussion__c", (jsonValue callData).prop "discussions"),
     ("OCE__CallToDo__c.EPPV", .arr (((jsonValue callData).prop "compliances").elems.filter
        (fun r => Val.strictEq (r.prop "RecordTypeId") env.eppvRecordTypeId))),
     ("OCE__CallToDo__c.MID", .arr (((jsonValue callData).prop "compliances").elems.filter
        (fun r => Val.strictEq (r.prop "RecordTypeId") env.midRecordTypeId)))]

/-- The `newState` that the existing-record branch builds from a well-formed
bundle (`loadExisting_wellFormed` below), written without the error cases. -/
def newStateOf (env : Env) (callData : Val) : Obj :=
  [("originalData", originalDataRecord env callData),
   ("OCE__Status__c", (callData.prop "call").prop "OCE__Status__c"),
   ("readOnly", .bool
      (Val.strictNe ((callData.prop "call").prop "OCE__Status__c") (.str "Draft") ||
       Val.strictNe ((callData.prop "call").prop "OwnerId") env.userId)),
   ("editState",
      if (Val.strictNe ((callData.prop "call").prop "OCE__Status__c") (.str "Draft") ||
          Val.strictNe ((callData.prop "call").prop "OwnerId") env.userId)
      then env.editStateView else env.editStateEdit),
   ("OCE__Territory__c", (callData.prop "call").prop "OCE__Territory__c"),
   ("isOwner", .bool (Val.strictEq ((callData.prop "call").prop "OwnerId") env.userId)),
   ("mainData", .obj (mainDataOf env callData)),
   ("originalMainData", .obj (mainDataOf env callData)),
   ("mainDataValidators", getMainDateValidators env),
   ("attendees", .arr ((callData.prop "attendees").elems.map attendeeRecord)),
   ("originalAttendees", .arr ((callData.prop "attendees").elems.map attendeeRecord)),
   ("attendeesComparers", .obj [("attendees", attendeesComparer)]),
   ("employeeAttendees", .arr ((callData.prop "employees").elems.map employeeRecord)),
   ("originalEmployeeAttendees", .arr ((callData.prop "employees").elems.map employeeRecord)),
   ("employeeAttendeesComparers", .obj [("employeeAttendees", employeeAttendeesComparer)]),
   ("items", .arr ((callData.prop "items").elems.map (itemRecord env))),
   ("itemValidators", getItemDateValidators env),
   ("originalItems", jsonValue (.arr ((callData.prop "items").elems.map (itemRecord env)))),
   ("messages", .arr ((callData.prop "messages").elems.map messageOf)),
   ("originalMessages", jsonValue (.arr ((callData.prop "messages").elems.map messageOf))),
   ("discussions", .arr ((callData.prop "discussions").elems.map discussionOf)),
   ("originalDiscussions",
      jsonValue (.arr ((callData.prop "discussions").elems.map discussionOf))),
   ("compliances", .arr ((callData.prop "compliances").elems.map complianceOf)),
   ("originalCompliances",
      jsonValue (.arr ((callData.prop "compliances").elems.map complianceOf))),
   ("complianceValidationResults", .arr []),
   ("details", .arr ((callData.prop "details").elems.map (detailOf env))),
   ("originalDetails", .arr (callData.prop "details").elems)]

/-- A fetched bundle with one record in each list; `order` is the display
order of its detail. -/
def sampleBundleWith (order : Val) : Val :=
  .obj
    [("Id", .str "c1"),
     ("call", .obj
       [("Id", .str "c1"),
        ("OCE__Status__c", .str "Draft"),
        ("OwnerId", .str "u1"),
        ("OCE__Territory__c", .str "T1"),
        ("OCE__CallDateTime__c", .str "2024-01-01T09:00:00.000Z"),
        ("OCE__Channel__c", .str "Face To Face"),
        ("OCE__DurationPicklist__c", .null),
        ("OCE__PreCallNotes__c", .null),
        ("OCE__NextCallObjective__c", .str "follow up")]),
     ("attendees", .arr
       [.obj [("Id", .str "a1"), ("OCE__Account__c", .str "acc1"),
          ("OCE__Account__r", .obj [("Name", .str "Dr A")])]]),
     ("employees", .arr
       [.obj [("Id", .str "e1"), ("OCE__User__c", .str "u2"),
          ("OCE__User__r", .obj [("Name", .str "Rep B")])]]),
     ("items", .arr
       [.obj [("Id", .str "i1"), ("OCE__Product__c", .str "p1"), ("OCE__Quantity__c", .num 2),
          ("OCE__Item__c", .str "it1"), ("OCE__Item__r", .obj [("Name", .str "Leaflet")])]]),
     ("messages", .arr
       [.obj [("Id", .str "m1"), ("OCE__CallDetail__c", .str "d1"),
          ("OCE__Reaction__c", .str "Positive"), ("OCE__CustomReaction__c", .null)]]),
     ("discussions", .arr
       [.obj [("Id", .str "s1"), ("OCE__CallDetail__c", .str "d1"),
          ("OCE__Notes__c", .null), ("OCE__Topic__c", .str "")]]),
     ("compliances", .arr
       [.obj [("Id", .str "t1"), ("RecordTypeId", .str "rtMid"),
          ("OCE__SurveyType__c", .str "Mid")]]),
     ("details", .arr [.obj [("Id", .str "d1"), ("OCE__DisplayOrder__c", order)]])]

/-- The sample bundle, its detail numbered 1. -/
def sampleBundle : Val := sampleBundleWith (.num 1)

/-- Collaborators for the examples: the fetch answers with `bundle`, the
current user is `u1`.  No example parses a display order beyond
`maxExactInt`, so `parseIntBeyondExact` is never consulted. -/
def sampleEnvWith (bundle : Val) : Env where
  getDetailAsync := fun _ _ => .ok bundle
  userId := .str "u1"
  midRecordTypeId := .str "rtMid"
  eppvRecordTypeId := .str "rtEppv"
  parseApiDateTime := fun v => .obj [("iso", v)]
  convertApiIntegerToString := fun v =>
    match v with
    | .num n => .str (toString n)
    | w => w
  editStateView := .str "View"
  editStateEdit := .str "Edit"
  callDateValidator := .obj []
  numericboxIntRangeValidator := fun lo hi => .obj [("min", .num lo), ("max", .num hi)]
  guid := .str "guid-1"
  defaultDuration := .str "30"
  parseIntBeyondExact := fun _ => .nan

/-- The example collaborators with the sample bundle. -/
def sampleEnv : Env := sampleEnvWith sampleBundle

/-- Parameters of a new call. -/
def sampleParams : Val :=
  .obj [("territory", .str "T1"), ("accountId", .str "acc1"), ("accountName", .str "Dr A")]

/-! ## The call date validator -/

/-- A time zone, as far as the validator needs it: the instant (in epoch
milliseconds) at which each calendar day starts in the zone.  A later day
starts later, whatever the zone does with daylight saving time. -/
structure Zone where
  startOfDay : Int → Int
  mono : StrictMono startOfDay

/-- The zone at a fixed offset (in milliseconds) from UTC. -/
def Zone.fixed (offset : Int) : Zone where
  startOfDay := fun day => day * 86400000 - offset
  mono := by
    intro a b h
    show a * 86400000 - offset < b * 86400000 - offset
    omega

/-- A `DateTime` object of the date library: a calendar day of its zone
(counted from 1970-01-01) and the milliseconds elapsed since that day began.
An invalid `DateTime` (the result of a failed parse) has `isValid` false. -/
structure DateTime where
  isValid : Bool
  zone : Zone
  day : Int
  millisOfDay : Nat

/-- The method `startOf('day')`: a new `DateTime` at the start of the same
calendar day in the same zone. -/
def DateTime.startOfDay (d : DateTime) : DateTime :=
  { d with millisOfDay := 0 }

/-- The method `valueOf()`, which the comparison operators use: the epoch
milliseconds of the instant, `NaN` for an invalid `DateTime`. -/
def DateTime.valueOf (d : DateTime) : Val :=
  if d.isValid then .num (d.zone.startOfDay d.day + d.millisOfDay) else .nan

/-- The operator `>` on two numbers; any comparison with `NaN` is false. -/
def numGt : Val → Val → Bool
  | .num a, .num b => decide (b < a)
  | _, _ => false

/-- What a caller can hand to the validator: a `DateTime` object or any other
value. -/
inductive DateInput where
  | value (v : Val)
  | dateTime (d : DateTime)

/-- Truthiness of the argument; a `DateTime` is an object and truthy. -/
def DateInput.truthy : DateInput → Bool
  | .value v => v.truthy
  | .dateTime _ => true

/-- The call `x.startOf('day')`: a `TypeError` when `x` is no `DateTime`. -/
def DateInput.startOfDay : DateInput → Except Err DateTime
  | .dateTime d => .ok d.startOfDay
  | .value _ => .error .typeError

/-- The class `CallDateValidator` with its two private fields. -/
structure CallDateValidator where
  maxDateTime : DateInput
  futureCallLimit : Val

/-- The method `validate(value)`.  `formatRange` stands for the formatted
message `format(m17n(MessageKeys.CALL_BASIC_ERROR_DATERANGE), ...)` as a
function of the future call limit `N`. -/
def CallDateValidator.validate (formatRange : Val → Val) (self : CallDateValidator)
    (value : DateInput) : Except Err Val :=
  if !value.truthy then .ok .null
  else
    match value.startOfDay with
    | .error e => .error e
    | .ok valueDay =>
      match self.maxDateTime.startOfDay with
      | .error e => .error e
      | .ok maxDay =>
        if numGt valueDay.valueOf maxDay.valueOf then
          .ok (.obj [("type", .str "CallDateValidate"),
            ("message", formatRange self.futureCallLimit)])
        else .ok .null

/-- A maximum call date: day 19800 at 10:00 in the zone nine hours east of UTC. -/
def sampleMaxDate : DateTime :=
  { isValid := true, zone := Zone.fixed 32400000, day := 19800, millisOfDay := 36000000 }

/-- A call date on the day of `sampleMaxDate`, at 23:00. -/
def sampleSameDayLater : DateTime :=
  { isValid := true, zone := Zone.fixed 32400000, day := 19800, millisOfDay := 82800000 }

/-- A call date on the day after `sampleMaxDate`, at 00:01. -/
def sampleNextDay : DateTime :=
  { isValid := true, zone := Zone.fixed 32400000, day := 19801, millisOfDay := 60000 }

/-- A call date on the calendar day of `sampleMaxDate`, at 10:00, in the zone
five hours west of UTC. -/
def sampleOtherZone : DateTime :=
  { isValid := true, zone := Zone.fixed (-18000000), day := 19800, millisOfDay := 36000000 }

/-! ## Basic facts about objects -/

theorem getField_setField (k k' : String) (v : Val) (fs : Obj) :
    getField k' (setField k v fs) = if k = k' then v else getField k' fs := by
  induction fs with
  | nil =>
    by_cases h : k = k' <;> simp [setField, getField, h]
  | cons p fs ih =>
    obtain ⟨a, b⟩ := p
    by_cases h : k = k'
    · subst h
      by_cases ha : a = k <;> simp [setField, getField, ha, ih]
    · by_cases ha : a = k
      · subst ha
        simp [setField, getField, h]
      · by_cases hb : a = k'
        · subst hb
          simp [setField, getField, ha, h]
        · simp [setField, getField, ha, hb, h, ih]

theorem getField_setField_self (k : String) (v : Val) (fs : Obj) :
    getField k (setField k v fs) = v := by
  simp [getField_setField]

theorem getField_setField_ne {k k' : String} (h : k ≠ k') (v : Val) (fs : Obj) :
    getField k' (setField k v fs) = getField k' fs := by
  simp [getField_setField, h]

theorem hasField_eq_true_iff (k : String) (fs : Obj) :
    hasField k fs = true ↔ k ∈ fs.map Prod.fst := by
  induction fs with
  | nil => simp [hasField]
  | cons p fs ih =>
    obtain ⟨a, b⟩ := p
    by_cases ha : a = k
    · simp [hasField, ha]
    · have ha' : ¬ k = a := fun e => ha e.symm
      simp [hasField, ha, ha', ih]

/-- After the loop `ret[key] = src[key]` over a list of keys, a property read
gives the source value for the keys of the list and the old value otherwise. -/
theorem getField_foldl_setField (f : String → Val) (key : String) :
    ∀ (es : List (String × Val)) (ret : Obj), (∀ kv ∈ es, kv.2 = f kv.1) →
      getField key (es.foldl (fun r kv => setField kv.1 kv.2 r) ret) =
        if key ∈ es.map Prod.fst then f key else getField key ret := by
  intro es
  induction es with
  | nil => intro ret _; simp
  | cons p es ih =>
    intro ret h
    obtain ⟨a, b⟩ := p
    have hb : b = f a := h (a, b) (List.mem_cons_self _ _)
    have hes : ∀ kv ∈ es, kv.2 = f kv.1 := fun kv hkv => h kv (List.mem_cons_of_mem _ hkv)
    rw [List.foldl_cons, ih _ hes]
    by_cases hk : key ∈ es.map Prod.fst
    · simp [hk]
    · by_cases ha : a = key
      · subst ha
        simp [getField_setField, hb]
      · have ha' : ¬ key = a := fun e => ha e.symm
        have hk' : ∀ x, (key, x) ∉ es := by
          intro x hx
          exact hk (List.mem_map.mpr ⟨(key, x), hx, rfl⟩)
        simp [hk', getField_setField, ha, ha']

theorem assignAll_obj (src ret : Obj) :
    ∃ ret', assignAll (.obj src) ret = .ok ret' ∧
      ∀ key, getField key ret' =
        if hasField key src then getField key src else getField key ret := by
  refine ⟨_, rfl, ?_⟩
  intro key
  have h := getField_foldl_setField (fun k => getField k src) key
    (src.map (fun kv => (kv.1, getField kv.1 src))) ret
    (by
      intro kv hkv
      obtain ⟨p, _, rfl⟩ := List.mem_map.mp hkv
      rfl)
  rw [h]
  have hmap : (src.map (fun kv => (kv.1, getField kv.1 src))).map Prod.fst = src.map Prod.fst := by
    simp [List.map_map, Function.comp_def]
  rw [hmap]
  by_cases hk : key ∈ src.map Prod.fst
  · rw [if_pos hk, if_pos ((hasField_eq_true_iff key src).mpr hk)]
  · have : hasField key src ≠ true := fun e => hk ((hasField_eq_true_iff key src).mp e)
    rw [if_neg hk, if_neg this]

theorem strictEq_str_iff (t : Val) (s : String) :
    Val.strictEq t (.str s) = true ↔ t = .str s := by
  cases t <;> simp [Val.strictEq]

theorem ofVal_label (tag : ActionTag) : ActionTag.ofVal (.str tag.label) = some tag := by
  cases tag <;> rfl

theorem ofVal_eq_none_iff (t : Val) :
    ActionTag.ofVal t = none ↔ ∀ tag : ActionTag, t ≠ .str tag.label := by
  constructor
  · intro h tag ht
    rw [ht, ofVal_label] at h
    cases h
  · intro h
    unfold ActionTag.ofVal
    rw [List.find?_eq_none]
    intro tag _ hs
    exact h tag ((strictEq_str_iff t _).mp hs)

theorem filterE_eq_filter (p : Val → Bool) (cb : Val → Except Err Bool) :
    ∀ xs : List Val, (∀ x ∈ xs, cb x = .ok (p x)) → filterE cb xs = .ok (xs.filter p) := by
  intro xs
  induction xs with
  | nil => intro _; rfl
  | cons x xs ih =>
    intro h
    have hx : cb x = .ok (p x) := h x (List.mem_cons_self _ _)
    have hxs := ih (fun y hy => h y (List.mem_cons_of_mem _ hy))
    simp only [filterE, hx, hxs, List.filter_cons]

theorem refersToOther_eq (detailId r : Val) (h : r.isNullish = false) :
    refersToOther detailId r = .ok (Val.strictNe (r.prop "OCE__CallDetail__c") detailId) := by
  simp [refersToOther, Val.get, h]

/-! ## The reducer: specification theorems -/

theorem label_mem_actionTags (tag : ActionTag) : tag.label ∈ actionTags := by
  cases tag <;> simp [ActionTag.label, actionTags]

/-- C1. On a state whose details, messages and discussions are arrays of
records, `detailRemove` returns a state whose messages are exactly the previous
messages whose `OCE__CallDetail__c` is not (strictly) the removed id, in their
previous order, and likewise for the discussions; this holds whatever the
imported list helpers do to the details. -/
theorem detailRemove_cascades (u : CallBasicUtil) (state : Obj) (detailId : Val)
    (details messages discussions : List Val)
    (hd : getField "details" state = .arr details)
    (hm : getField "messages" state = .arr messages)
    (hs : getField "discussions" state = .arr discussions)
    (hmo : ∀ m ∈ messages, m.isNullish = false)
    (hso : ∀ d ∈ discussions, d.isNullish = false) :
    ∃ s', callBasicContextReducer u state
        (mkAction "detailRemove" [("detailId", detailId)]) = .ok (s', []) ∧
      getField "messages" s' = .arr (messages.filter
        (fun m => Val.strictNe (m.prop "OCE__CallDetail__c") detailId)) ∧
      getField "discussions" s' = .arr (discussions.filter
        (fun d => Val.strictNe (d.prop "OCE__CallDetail__c") detailId)) := by
  have hfm := filterE_eq_filter
    (fun m => Val.strictNe (m.prop "OCE__CallDetail__c") detailId) (refersToOther detailId)
    messages (fun m hmem => refersToOther_eq detailId m (hmo m hmem))
  have hfs := filterE_eq_filter
    (fun d => Val.strictNe (d.prop "OCE__CallDetail__c") detailId) (refersToOther detailId)
    discussions (fun d hmem => refersToOther_eq detailId d (hso d hmem))
  have htag : ActionTag.ofVal
      (Val.optGet (mkAction "detailRemove" [("detailId", detailId)]) "type") =
      some .detailRemove := rfl
  have hid : Val.prop (mkAction "detailRemove" [("detailId", detailId)]) "detailId" =
      detailId := rfl
  unfold callBasicContextReducer
  rw [htag]
  simp only [hid, hd, Val.asArray]
  rw [getField_setField_ne (by decide), hm]
  simp only [Val.asArray, hfm]
  rw [getField_setField_ne (by decide), getField_setField_ne (by decide), hs]
  simp only [Val.asArray, hfs]
  refine ⟨_, rfl, ?_, ?_⟩
  · rw [getField_setField_ne (by decide), getField_setField_self]
  · rw [getField_setField_self]

/-- Witness of C1: removing detail `d1` from the sample state keeps message
`m2` and discussion `s1`, the only ones that refer to another detail. -/
theorem detailRemove_cascades_witness :
    getField "details" sampleState = .arr [mkDetail "d1" (.num 1), mkDetail "d2" (.num 2)] ∧
    (∀ m ∈ [mkChild "m1" (.str "d1"), mkChild "m2" (.str "d2"), mkChild "m3" (.str "d1")],
      m.isNullish = false) ∧
    (∀ d ∈ [mkChild "s1" (.str "d2"), mkChild "s2" (.str "d1")], d.isNullish = false) ∧
    ∃ s', callBasicContextReducer (specUtil 1) sampleState
        (mkAction "detailRemove" [("detailId", .str "d1")]) = .ok (s', []) ∧
      getField "messages" s' = .arr [mkChild "m2" (.str "d2")] ∧
      getField "discussions" s' = .arr [mkChild "s1" (.str "d2")] :=
  have h1 : ∀ m ∈ [mkChild "m1" (.str "d1"), mkChild "m2" (.str "d2"),
      mkChild "m3" (.str "d1")], m.isNullish = false := by
    intro m hm
    simp only [List.mem_cons, List.mem_singleton, List.not_mem_nil, or_false] at hm
    rcases hm with rfl | rfl | rfl <;> rfl
  have h2 : ∀ d ∈ [mkChild "s1" (.str "d2"), mkChild "s2" (.str "d1")],
      d.isNullish = false := by
    intro d hd
    simp only [List.mem_cons, List.mem_singleton, List.not_mem_nil, or_false] at hd
    rcases hd with rfl | rfl <;> rfl
  ⟨rfl, h1, h2, detailRemove_cascades (specUtil 1) sampleState (.str "d1") _ _ _ rfl rfl rfl h1 h2⟩

/-- C2. For every state and every action whose `type` is none of the fourteen
tags (an absent action and an action without `type` included), the reducer
throws the error of its default branch and returns no state. -/
theorem unknown_action_throws (u : CallBasicUtil) (state : Obj) (action : Val)
    (h : ∀ s ∈ actionTags, action.optGet "type" ≠ .str s) :
    callBasicContextReducer u state action =
      .error (.unknownActionType (action.optGet "type")) := by
  have hnone : ActionTag.ofVal (action.optGet "type") = none :=
    (ofVal_eq_none_iff _).mpr (fun tag => h _ (label_mem_actionTags tag))
  unfold callBasicContextReducer
  rw [hnone]

/-- Witness of C2: an absent action on the sample state. -/
theorem unknown_action_throws_witness :
    (∀ s ∈ actionTags, Val.optGet .undefined "type" ≠ .str s) ∧
    callBasicContextReducer (specUtil 1) sampleState .undefined =
      .error (.unknownActionType .undefined) :=
  have h : ∀ s ∈ actionTags, Val.optGet .undefined "type" ≠ .str s := by
    intro s _ hs
    cases hs
  ⟨h, unknown_action_throws (specUtil 1) sampleState .undefined h⟩

/-- C4. The discard confirmation flow, for every state and every pending
closure `f` (tag `k`): `discard` returns the state `pending` with
`showDiscardConfirm` true and `nextAction` `f`, invoking nothing; from
`pending`, `discardOk` returns the state `cleared` with `showDiscardConfirm`
false and `nextAction` null and invokes `f` exactly once; from `pending`,
`discardCancel` returns the same `cleared` and invokes nothing.  Every other
field of `pending` and of `cleared` is the field of the first state. -/
theorem discard_confirmation_flow (u : CallBasicUtil) (state : Obj) (k : Nat) :
    ∃ pending cleared : Obj,
      callBasicContextReducer u state (mkAction "discard" [("nextAction", .fn k)]) =
        .ok (pending, []) ∧
      getField "showDiscardConfirm" pending = .bool true ∧
      getField "nextAction" pending = .fn k ∧
      callBasicContextReducer u pending (mkAction "discardOk" []) = .ok (cleared, [k]) ∧
      callBasicContextReducer u pending (mkAction "discardCancel" []) = .ok (cleared, []) ∧
      getField "showDiscardConfirm" cleared = .bool false ∧
      getField "nextAction" cleared = .null ∧
      ∀ key, key ≠ "showDiscardConfirm" → key ≠ "nextAction" →
        getField key pending = getField key state ∧
        getField key cleared = getField key state := by
  refine ⟨setField "nextAction" (.fn k) (setField "showDiscardConfirm" (.bool true) state),
    setField "nextAction" .null (setField "showDiscardConfirm" (.bool false)
      (setField "nextAction" (.fn k) (setField "showDiscardConfirm" (.bool true) state))),
    rfl, ?_, ?_, ?_, rfl, ?_, ?_, ?_⟩
  · rw [getField_setField_ne (by decide), getField_setField_self]
  · rw [getField_setField_self]
  · have htag : ActionTag.ofVal (Val.optGet (mkAction "discardOk" []) "type") =
        some .discardOk := rfl
    unfold callBasicContextReducer
    rw [htag]
    simp only [getField_setField_self]
  · rw [getField_setField_ne (by decide), getField_setField_self]
  · rw [getField_setField_self]
  · intro key h1 h2
    have h1' : ¬ "showDiscardConfirm" = key := fun e => h1 e.symm
    have h2' : ¬ "nextAction" = key := fun e => h2 e.symm
    simp [getField_setField, h1', h2']

/-- C8 as stated fails: after `nodata` has set `forceUnselect`, a `dataloaded`
whose `newState` has no `forceUnselect` returns a state that still carries it
(and the `isNew` of the first state), so the result is not `newState` with
`needInitialize` false. -/
theorem dataloaded_keeps_old_fields :
    callBasicContextReducer (specUtil 1)
        [("isNew", .bool false), ("mainData", .null), ("forceUnselect", .bool true)]
        (mkAction "dataloaded" [("newState", .obj [("mainData", .obj [("Id", .str "c1")])])]) =
      .ok ([("isNew", .bool false), ("mainData", .obj [("Id", .str "c1")]),
            ("forceUnselect", .bool true), ("needInitialize", .bool false)], []) ∧
    hasField "forceUnselect" [("mainData", Val.obj [("Id", .str "c1")])] = false ∧
    getField "forceUnselect" (setField "needInitialize" (.bool false)
      [("mainData", Val.obj [("Id", .str "c1")])]) = .undefined :=
  ⟨rfl, rfl, rfl⟩

/-- C8, amended.  For every state and every object `newState`, `dataloaded`
returns a state in which `needInitialize` is false, every other field of
`newState` has the value `newState` gives it, and every field that `newState`
does not have keeps the value of the previous state. -/
theorem dataloaded_merges (u : CallBasicUtil) (state newState : Obj) :
    ∃ s', callBasicContextReducer u state
        (mkAction "dataloaded" [("newState", .obj newState)]) = .ok (s', []) ∧
      ∀ key, getField key s' =
        if key = "needInitialize" then .bool false
        else if hasField key newState then getField key newState
        else getField key state := by
  obtain ⟨ret, hret, hget⟩ := assignAll_obj newState state
  have htag : ActionTag.ofVal
      (Val.optGet (mkAction "dataloaded" [("newState", .obj newState)]) "type") =
      some .dataloaded := rfl
  have hns : Val.prop (mkAction "dataloaded" [("newState", .obj newState)]) "newState" =
      .obj newState := rfl
  refine ⟨setField "needInitialize" (.bool false) ret, ?_, ?_⟩
  · unfold callBasicContextReducer
    rw [htag]
    simp only [hns, hret]
  · intro key
    rw [getField_setField, hget]
    by_cases hk : key = "needInitialize"
    · subst hk
      simp
    · have hk' : ¬ "needInitialize" = key := fun e => hk e.symm
      simp [hk, hk']

theorem collection_cases {c : String} (hc : c ∈ collections) :
    c = "attendees" ∨ c = "employeeAttendees" ∨ c = "items" ∨ c = "details" ∨
    c = "messages" ∨ c = "discussions" ∨ c = "compliances" := by
  simpa [collections] using hc

/-- Setting a flag of the state leaves the collections as they are. -/
theorem getField_collection_setFlag {c k : String} (hc : c ∈ collections)
    (hk : k ∉ collections) (v : Val) (fs : Obj) :
    getField c (setField k v fs) = getField c fs := by
  apply getField_setField_ne
  intro e
  exact hk (e ▸ hc)

/-- C7 as stated fails: `detailAdd` with one discussion changes both `details`
and `discussions` of the sample state. -/
theorem detailAdd_touches_two_collections :
    callBasicContextReducer (specUtil 1) sampleState
        (mkAction "detailAdd" [("detail", mkDetail "d3" .null),
          ("discussions", .arr [mkChild "s3" (.str "d3")])]) =
      .ok ([("isNew", .bool false),
            ("showDiscardConfirm", .bool false),
            ("needInitialize", .bool false),
            ("mainData", .obj [("Id", .str "c1")]),
            ("details", .arr [mkDetail "d1" (.num 1), mkDetail "d2" (.num 2),
              mkDetail "d3" (.num 3)]),
            ("messages", .arr [mkChild "m1" (.str "d1"), mkChild "m2" (.str "d2"),
              mkChild "m3" (.str "d1")]),
            ("discussions", .arr [mkChild "s1" (.str "d2"), mkChild "s2" (.str "d1"),
              mkChild "s3" (.str "d3")])], []) ∧
    Val.arr [mkDetail "d1" (.num 1), mkDetail "d2" (.num 2), mkDetail "d3" (.num 3)] ≠
      getField "details" sampleState ∧
    Val.arr [mkChild "s1" (.str "d2"), mkChild "s2" (.str "d1"), mkChild "s3" (.str "d3")] ≠
      getField "discussions" sampleState := by
  refine ⟨rfl, ?_, ?_⟩
  · intro h
    have h2 := congrArg (fun v => (Val.asArray v).toOption.map List.length) h
    revert h2
    decide
  · intro h
    have h2 := congrArg (fun v => (Val.asArray v).toOption.map List.length) h
    revert h2
    decide

theorem assignAll_frame (ns ret ret' : Obj) (h : assignAll (.obj ns) ret = .ok ret')
    (c : String) (hc : hasField c ns = false) : getField c ret' = getField c ret := by
  obtain ⟨r, hr, hget⟩ := assignAll_obj ns ret
  rw [hr] at h
  cases h
  rw [hget, hc]
  rfl

/-- C7, amended.  For an action with tag `tag`, what the reducer returns:
`reload`, `nodata`, `discard`, `discardCancel`, `remove`, `removeCancel` and
`removeOk` return a state with every collection as it was, and so does
`discardOk` when the pending `nextAction` is a function; `detailUp` and
`detailDown` on an array of details set `details` to the moved and re-indexed
list and leave every other collection as it was.  So for these tags at most one
collection differs.  `detailAdd` sets `details` to the re-indexed list with the
detail appended and, when `action.discussions.length > 0`, also sets
`discussions` to the previous array followed by `action.discussions`, leaving
every other collection as it was.  `dataChanged` and `dataloaded` return the
state in which every key of the object `action.newState` has the value
`newState` gives it and every other key its previous value (`dataloaded` also
sets `needInitialize` to false). -/
theorem actions_frame (u : CallBasicUtil) (state : Obj) (action : Val) (tag : ActionTag)
    (htag : ActionTag.ofVal (action.optGet "type") = some tag) :
    (tag ∈ [ActionTag.reload, .nodata, .discard, .discardCancel, .remove, .removeCancel,
        .removeOk] →
      ∃ s', callBasicContextReducer u state action = .ok (s', []) ∧
        ∀ c ∈ collections, getField c s' = getField c state) ∧
    (tag = .discardOk → ∀ k, getField "nextAction" state = .fn k →
      ∃ s', callBasicContextReducer u state action = .ok (s', [k]) ∧
        ∀ c ∈ collections, getField c s' = getField c state) ∧
    (tag = .detailUp → ∀ dets, getField "details" state = .arr dets →
      ∃ s', callBasicContextReducer u state action = .ok (s', []) ∧
        getField "details" s' = .arr (u.updateDetailIndex (u.moveAt dets
          (u.getDetailIndex dets (action.prop "detailId"))
          (u.getDetailIndex dets (action.prop "detailId") - 1))) ∧
        ∀ c ∈ collections, c ≠ "details" → getField c s' = getField c state) ∧
    (tag = .detailDown → ∀ dets, getField "details" state = .arr dets →
      ∃ s', callBasicContextReducer u state action = .ok (s', []) ∧
        getField "details" s' = .arr (u.updateDetailIndex (u.moveAt dets
          (u.getDetailIndex dets (action.prop "detailId"))
          (u.getDetailIndex dets (action.prop "detailId") + 1))) ∧
        ∀ c ∈ collections, c ≠ "details" → getField c s' = getField c state) ∧
    (tag = .detailAdd → ∀ dets, getField "details" state = .arr dets →
      (lengthPositive u (action.prop "discussions") = .ok false →
        ∃ s', callBasicContextReducer u state action = .ok (s', []) ∧
          getField "details" s' =
            .arr (u.updateDetailIndex (dets ++ [action.prop "detail"])) ∧
          ∀ c ∈ collections, c ≠ "details" → getField c s' = getField c state) ∧
      (lengthPositive u (action.prop "discussions") = .ok true →
        ∀ old, getField "discussions" state = .arr old →
        ∃ s', callBasicContextReducer u state action = .ok (s', []) ∧
          getField "details" s' =
            .arr (u.updateDetailIndex (dets ++ [action.prop "detail"])) ∧
          getField "discussions" s' =
            .arr (old ++ concatItems (action.prop "discussions")) ∧
          ∀ c ∈ collections, c ≠ "details" → c ≠ "discussions" →
            getField c s' = getField c state)) ∧
    (tag = .dataChanged → ∀ ns, action.prop "newState" = .obj ns →
      ∃ s', callBasicContextReducer u state action = .ok (s', []) ∧
        ∀ key, getField key s' =
          if hasField key ns then getField key ns else getField key state) ∧
    (tag = .dataloaded → ∀ ns, action.prop "newState" = .obj ns →
      ∃ s', callBasicContextReducer u state action = .ok (s', []) ∧
        ∀ key, getField key s' =
          if key = "needInitialize" then .bool false
          else if hasField key ns then getField key ns
          else getField key state) := by
  refine ⟨?_, ?_, ?_, ?_, ?_, ?_, ?_⟩
  · intro hmem
    simp only [List.mem_cons, List.mem_singleton, List.not_mem_nil, or_false] at hmem
    unfold callBasicContextReducer
    rcases hmem with rfl | rfl | rfl | rfl | rfl | rfl | rfl <;> rw [htag] <;>
      refine ⟨_, rfl, ?_⟩ <;> intro c hc <;>
      repeat rw [getField_collection_setFlag hc (by decide)]
  · intro h k hk
    subst h
    unfold callBasicContextReducer
    rw [htag]
    simp only [hk]
    refine ⟨_, rfl, ?_⟩
    intro c hc
    rw [getField_collection_setFlag hc (by decide), getField_collection_setFlag hc (by decide)]
  · intro h dets hd
    subst h
    unfold callBasicContextReducer
    rw [htag]
    simp only [hd, Val.asArray]
    refine ⟨_, rfl, getField_setField_self _ _ _, ?_⟩
    intro c _ hne
    rw [getField_setField_ne (fun e => hne e.symm)]
  · intro h dets hd
    subst h
    unfold callBasicContextReducer
    rw [htag]
    simp only [hd, Val.asArray]
    refine ⟨_, rfl, getField_setField_self _ _ _, ?_⟩
    intro c _ hne
    rw [getField_setField_ne (fun e => hne e.symm)]
  · intro h dets hd
    subst h
    constructor
    · intro hlen
      unfold callBasicContextReducer
      rw [htag]
      simp only [hd, Val.asArray, hlen]
      refine ⟨_, rfl, getField_setField_self _ _ _, ?_⟩
      intro c _ hne
      rw [getField_setField_ne (fun e => hne e.symm)]
    · intro hlen old hold
      unfold callBasicContextReducer
      rw [htag]
      simp only [hd, Val.asArray, hlen, if_true]
      rw [getField_setField_ne (by decide), hold]
      refine ⟨_, rfl, ?_, getField_setField_self _ _ _, ?_⟩
      · rw [getField_setField_ne (by decide), getField_setField_self]
      · intro c _ h1 h2
        rw [getField_setField_ne (fun e => h2 e.symm),
          getField_setField_ne (fun e => h1 e.symm)]
  · intro h ns hns
    subst h
    obtain ⟨ret, hret, hget⟩ := assignAll_obj ns state
    unfold callBasicContextReducer
    rw [htag]
    simp only [hns, hret]
    exact ⟨ret, rfl, hget⟩
  · intro h ns hns
    subst h
    obtain ⟨ret, hret, hget⟩ := assignAll_obj ns state
    unfold callBasicContextReducer
    rw [htag]
    simp only [hns, hret]
    refine ⟨_, rfl, ?_⟩
    intro key
    rw [getField_setField, hget]
    by_cases hk : key = "needInitialize"
    · subst hk
      simp
    · have hk' : ¬ "needInitialize" = key := fun e => hk e.symm
      simp [hk, hk']

/-- Witness of the amended C7: `detailAdd` with one discussion on the sample
state sets `details` and `discussions` and leaves the other collections. -/
theorem actions_frame_witness :
    ActionTag.ofVal (Val.optGet (mkAction "detailAdd" [("detail", mkDetail "d3" .null),
        ("discussions", .arr [mkChild "s3" (.str "d3")])]) "type") = some .detailAdd ∧
    getField "details" sampleState = .arr [mkDetail "d1" (.num 1), mkDetail "d2" (.num 2)] ∧
    lengthPositive (specUtil 1) (.arr [mkChild "s3" (.str "d3")]) = .ok true ∧
    getField "discussions" sampleState =
      .arr [mkChild "s1" (.str "d2"), mkChild "s2" (.str "d1")] ∧
    ∃ s', callBasicContextReducer (specUtil 1) sampleState
        (mkAction "detailAdd" [("detail", mkDetail "d3" .null),
          ("discussions", .arr [mkChild "s3" (.str "d3")])]) = .ok (s', []) ∧
      getField "details" s' = .arr [mkDetail "d1" (.num 1), mkDetail "d2" (.num 2),
        mkDetail "d3" (.num 3)] ∧
      getField "discussions" s' = .arr [mkChild "s1" (.str "d2"), mkChild "s2" (.str "d1"),
        mkChild "s3" (.str "d3")] ∧
      ∀ c ∈ collections, c ≠ "details" → c ≠ "discussions" →
        getField c s' = getField c sampleState :=
  ⟨rfl, rfl, rfl, rfl,
    ((actions_frame (specUtil 1) sampleState
      (mkAction "detailAdd" [("detail", mkDetail "d3" .null),
        ("discussions", .arr [mkChild "s3" (.str "d3")])]) .detailAdd rfl).2.2.2.2.1 rfl
      [mkDetail "d1" (.num 1), mkDetail "d2" (.num 2)] rfl).2 rfl
      [mkChild "s1" (.str "d2"), mkChild "s2" (.str "d1")] rfl⟩

/-! ### Moving details -/

theorem moveAtList_cons_succ {α : Type} (x : α) (xs : List α) (a b : Nat) :
    moveAtList (x :: xs) (a + 1) (b + 1) = x :: moveAtList xs a b := by
  unfold moveAtList
  cases h : xs[a]? with
  | none => simp [h]
  | some y =>
    by_cases hb : b < xs.length
    · simp [h, hb, List.insertIdx]
    · simp [h, hb]

/-- Moving the second of two neighbours one position up swaps them. -/
theorem moveAtList_up {α : Type} (l : List α) (a b : α) (r : List α) :
    moveAtList (l ++ a :: b :: r) (l.length + 1) l.length = l ++ b :: a :: r := by
  induction l with
  | nil => simp [moveAtList, List.insertIdx]
  | cons x l ih =>
    simp only [List.cons_append, List.length_cons]
    rw [moveAtList_cons_succ, ih]

/-- Moving the first of two neighbours one position down swaps them. -/
theorem moveAtList_down {α : Type} (l : List α) (a b : α) (r : List α) :
    moveAtList (l ++ a :: b :: r) l.length (l.length + 1) = l ++ b :: a :: r := by
  induction l with
  | nil => simp [moveAtList, List.insertIdx]
  | cons x l ih =>
    simp only [List.cons_append, List.length_cons]
    rw [moveAtList_cons_succ, ih]

theorem setDisplayOrder_idem (n m : Int) (d : Val) :
    setDisplayOrder n (setDisplayOrder m d) = setDisplayOrder n d := by
  cases d <;> simp [setDisplayOrder]
  rename_i fs
  induction fs with
  | nil => simp [setField]
  | cons p fs ih =>
    obtain ⟨k, v⟩ := p
    by_cases hk : k = "OCE__DisplayOrder__c"
    · simp [setField, hk]
    · simp [setField, hk, ih]

theorem prop_Id_setDisplayOrder (n : Int) (d : Val) :
    (setDisplayOrder n d).prop "Id" = d.prop "Id" := by
  cases d <;> simp [setDisplayOrder, Val.prop]
  exact getField_setField_ne (by decide) _ _

theorem reindexFrom_append (n : Int) (xs ys : List Val) :
    reindexFrom n (xs ++ ys) = reindexFrom n xs ++ reindexFrom (n + xs.length) ys := by
  induction xs generalizing n with
  | nil => simp [reindexFrom]
  | cons x xs ih =>
    have e : n + 1 + (xs.length : Int) = n + ((xs.length + 1 : Nat) : Int) := by
      push_cast
      ring
    rw [List.cons_append, reindexFrom, ih, reindexFrom, List.length_cons, e, List.cons_append]

theorem length_reindexFrom (n : Int) (xs : List Val) :
    (reindexFrom n xs).length = xs.length := by
  induction xs generalizing n with
  | nil => rfl
  | cons x xs ih => simp [reindexFrom, ih]

theorem reindexFrom_idem (n m : Int) (xs : List Val) :
    reindexFrom n (reindexFrom m xs) = reindexFrom n xs := by
  induction xs generalizing n m with
  | nil => rfl
  | cons x xs ih => simp [reindexFrom, ih, setDisplayOrder_idem]

theorem findIdx_split (p : Val → Bool) :
    ∀ xs : List Val, xs.findIdx p < xs.length →
      ∃ l b r, xs = l ++ b :: r ∧ l.length = xs.findIdx p ∧
        (∀ d ∈ l, p d = false) ∧ p b = true := by
  intro xs
  induction xs with
  | nil => intro h; simp at h
  | cons x xs ih =>
    intro h
    rw [List.findIdx_cons] at h ⊢
    cases hx : p x with
    | true => exact ⟨[], x, xs, rfl, by simp, by simp, hx⟩
    | false =>
      rw [hx] at h
      simp only [cond_false, List.length_cons, Nat.add_lt_add_iff_right] at h
      obtain ⟨l, b, r, hxs, hlen, hl, hb⟩ := ih h
      refine ⟨x :: l, b, r, by rw [hxs]; rfl, by simp [hlen], ?_, hb⟩
      intro d hd
      rcases List.mem_cons.mp hd with rfl | hd
      · exact hx
      · exact hl d hd

theorem findIdx_of_split (p : Val → Bool) (l : List Val) (b : Val) (r : List Val)
    (hl : ∀ d ∈ l, p d = false) (hb : p b = true) :
    (l ++ b :: r).findIdx p = l.length := by
  induction l with
  | nil => simp [List.findIdx_cons, hb]
  | cons x l ih =>
    have hx : p x = false := hl x (List.mem_cons_self _ _)
    have := ih (fun d hd => hl d (List.mem_cons_of_mem _ hd))
    simp [List.findIdx_cons, hx, this]

theorem getDetailIndex_split (xs : List Val) (id : Val) (i : Int)
    (h : getDetailIndex xs id = i) (h0 : 0 ≤ i) :
    ∃ l b r, xs = l ++ b :: r ∧ (l.length : Int) = i ∧
      (∀ d ∈ l, Val.strictEq (d.prop "Id") id = false) ∧
      Val.strictEq (b.prop "Id") id = true := by
  unfold getDetailIndex at h
  simp only at h
  by_cases hlt : xs.findIdx (fun d => Val.strictEq (d.prop "Id") id) < xs.length
  · rw [if_pos hlt] at h
    obtain ⟨l, b, r, hxs, hlen, hl, hb⟩ := findIdx_split _ xs hlt
    exact ⟨l, b, r, hxs, by rw [hlen]; exact h, hl, hb⟩
  · rw [if_neg hlt] at h
    omega

theorem getDetailIndex_of_split (l : List Val) (b : Val) (r : List Val) (id : Val)
    (hl : ∀ d ∈ l, Val.strictEq (d.prop "Id") id = false)
    (hb : Val.strictEq (b.prop "Id") id = true) :
    getDetailIndex (l ++ b :: r) id = (l.length : Int) := by
  unfold getDetailIndex
  simp only
  rw [findIdx_of_split _ l b r hl hb]
  simp

theorem strictEq_eq {a b : Val} (h : Val.strictEq a b = true) : a = b := by
  cases a <;> cases b <;> simp_all [Val.strictEq]

theorem strictEq_comm (a b : Val) : Val.strictEq a b = Val.strictEq b a := by
  cases a <;> cases b <;> simp [Val.strictEq, eq_comm]

theorem reindexFrom_no_match (id : Val) (n : Int) (l : List Val)
    (hl : ∀ d ∈ l, Val.strictEq (d.prop "Id") id = false) :
    ∀ d ∈ reindexFrom n l, Val.strictEq (d.prop "Id") id = false := by
  induction l generalizing n with
  | nil => intro d hd; simp [reindexFrom] at hd
  | cons x l ih =>
    intro d hd
    simp only [reindexFrom, List.mem_cons] at hd
    rcases hd with rfl | hd
    · rw [prop_Id_setDisplayOrder]
      exact hl x (List.mem_cons_self _ _)
    · exact ih (n + 1) (fun e he => hl e (List.mem_cons_of_mem _ he)) d hd

theorem moveAt_up (l : List Val) (a b : Val) (r : List Val) :
    moveAt (l ++ a :: b :: r) ((l.length : Int) + 1) ((l.length : Int) + 1 - 1) =
      l ++ b :: a :: r := by
  have h1 : ((l.length : Int) + 1).toNat = l.length + 1 := by omega
  have h2 : ((l.length : Int) + 1 - 1).toNat = l.length := by omega
  unfold moveAt
  rw [if_pos (by omega), h1, h2, moveAtList_up]

theorem moveAt_down (l : List Val) (a b : Val) (r : List Val) :
    moveAt (l ++ a :: b :: r) (l.length : Int) ((l.length : Int) + 1) =
      l ++ b :: a :: r := by
  have h1 : ((l.length : Int) + 1).toNat = l.length + 1 := by omega
  have h2 : ((l.length : Int)).toNat = l.length := by omega
  unfold moveAt
  rw [if_pos (by omega), h1, h2, moveAtList_down]

/-- Re-indexing a list in which two neighbours were re-indexed and swapped
back gives the re-indexed list. -/
theorem reindexFrom_swapped_back (n m1 m2 m3 m4 : Int) (l : List Val) (a b : Val)
    (r : List Val) :
    reindexFrom n (reindexFrom m1 l ++ setDisplayOrder m2 a :: setDisplayOrder m3 b ::
      reindexFrom m4 r) = reindexFrom n (l ++ a :: b :: r) := by
  simp only [reindexFrom_append, reindexFrom, reindexFrom_idem, setDisplayOrder_idem,
    length_reindexFrom]

/-- On lists: moving the detail found at position `i > 0` up and then moving
the detail with the same id down gives the re-indexed list. -/
theorem up_then_down_list (base : Int) (xs : List Val) (id : Val) (i : Int)
    (hidx : getDetailIndex xs id = i) (hpos : 0 < i) :
    updateDetailIndex base
      (moveAt (updateDetailIndex base (moveAt xs i (i - 1)))
        (getDetailIndex (updateDetailIndex base (moveAt xs i (i - 1))) id)
        (getDetailIndex (updateDetailIndex base (moveAt xs i (i - 1))) id + 1)) =
      updateDetailIndex base xs := by
  obtain ⟨l0, b, r, hxs, hlen, hl, hb⟩ := getDetailIndex_split xs id i hidx (le_of_lt hpos)
  rcases List.eq_nil_or_concat l0 with rfl | ⟨l, a, rfl⟩
  · simp at hlen
    omega
  · rw [List.concat_eq_append] at hxs hlen hl
    have hxs' : xs = l ++ a :: b :: r := by rw [hxs]; simp
    have hi : i = (l.length : Int) + 1 := by
      rw [← hlen]
      simp
    subst hxs'
    subst hi
    have hl' : ∀ d ∈ l, Val.strictEq (d.prop "Id") id = false :=
      fun d hd => hl d (List.mem_append_left _ hd)
    rw [moveAt_up]
    unfold updateDetailIndex
    have hys : reindexFrom base (l ++ b :: a :: r) =
        reindexFrom base l ++ setDisplayOrder (base + l.length) b ::
          setDisplayOrder (base + l.length + 1) a ::
          reindexFrom (base + l.length + 1 + 1) r := by
      simp only [reindexFrom_append, reindexFrom]
    rw [hys]
    have hfind : getDetailIndex (reindexFrom base l ++ setDisplayOrder (base + l.length) b ::
          setDisplayOrder (base + l.length + 1) a ::
          reindexFrom (base + l.length + 1 + 1) r) id = ((reindexFrom base l).length : Int) :=
      getDetailIndex_of_split _ _ _ id (reindexFrom_no_match id base l hl')
        (by rw [prop_Id_setDisplayOrder]; exact hb)
    rw [hfind, moveAt_down, reindexFrom_swapped_back]

/-- On lists: moving the detail found at position `i`, not the last one, down
and then moving the detail with the same id up gives the re-indexed list,
provided the next detail has another id. -/
theorem down_then_up_list (base : Int) (xs : List Val) (id : Val) (i : Int)
    (hidx : getDetailIndex xs id = i) (h0 : 0 ≤ i) (hlast : i + 1 < xs.length)
    (hdist : (xs.map (fun d => d.prop "Id")).Pairwise (fun a b => Val.strictEq a b = false)) :
    updateDetailIndex base
      (moveAt (updateDetailIndex base (moveAt xs i (i + 1)))
        (getDetailIndex (updateDetailIndex base (moveAt xs i (i + 1))) id)
        (getDetailIndex (updateDetailIndex base (moveAt xs i (i + 1))) id - 1)) =
      updateDetailIndex base xs := by
  obtain ⟨l, b, r0, hxs, hlen, hl, hb⟩ := getDetailIndex_split xs id i hidx h0
  subst hxs
  cases r0 with
  | nil =>
    simp at hlast
    omega
  | cons c r =>
    have hi : i = (l.length : Int) := hlen.symm
    subst hi
    have hbc : Val.strictEq (b.prop "Id") (c.prop "Id") = false := by
      rw [List.map_append, List.pairwise_append] at hdist
      have h2 := hdist.2.1
      simp only [List.map_cons, List.pairwise_cons] at h2
      exact h2.1 _ (List.mem_cons_self _ _)
    have hc : Val.strictEq (c.prop "Id") id = false := by
      have hbid : b.prop "Id" = id := strictEq_eq hb
      rw [← hbid, strictEq_comm]
      exact hbc
    rw [moveAt_down]
    unfold updateDetailIndex
    have hys : reindexFrom base (l ++ c :: b :: r) =
        (reindexFrom base l ++ [setDisplayOrder (base + l.length) c]) ++
          setDisplayOrder (base + l.length + 1) b ::
          reindexFrom (base + l.length + 1 + 1) r := by
      simp only [reindexFrom_append, reindexFrom, List.append_assoc, List.singleton_append]
    have hno : ∀ d ∈ reindexFrom base l ++ [setDisplayOrder (base + l.length) c],
        Val.strictEq (d.prop "Id") id = false := by
      intro d hd
      rcases List.mem_append.mp hd with hd | hd
      · exact reindexFrom_no_match id base l hl d hd
      · rw [List.mem_singleton] at hd
        rw [hd, prop_Id_setDisplayOrder]
        exact hc
    have hfind := getDetailIndex_of_split _ (setDisplayOrder (base + l.length + 1) b)
      (reindexFrom (base + l.length + 1 + 1) r) id hno
      (by rw [prop_Id_setDisplayOrder]; exact hb)
    rw [hys, hfind]
    have hlen2 : (((reindexFrom base l ++ [setDisplayOrder (base + l.length) c]).length : Nat)
        : Int) = ((reindexFrom base l).length : Int) + 1 := by
      simp
    rw [hlen2, List.append_assoc, List.singleton_append, moveAt_up, reindexFrom_swapped_back]

theorem reducer_detailUp (u : CallBasicUtil) (state : Obj) (id : Val) (dets : List Val)
    (hd : getField "details" state = .arr dets) :
    callBasicContextReducer u state (mkAction "detailUp" [("detailId", id)]) =
      .ok (setField "details" (.arr (u.updateDetailIndex
        (u.moveAt dets (u.getDetailIndex dets id) (u.getDetailIndex dets id - 1)))) state, []) := by
  have htag : ActionTag.ofVal (Val.optGet (mkAction "detailUp" [("detailId", id)]) "type") =
      some .detailUp := rfl
  have hid : Val.prop (mkAction "detailUp" [("detailId", id)]) "detailId" = id := rfl
  unfold callBasicContextReducer
  rw [htag]
  simp only [hid, hd, Val.asArray]

theorem reducer_detailDown (u : CallBasicUtil) (state : Obj) (id : Val) (dets : List Val)
    (hd : getField "details" state = .arr dets) :
    callBasicContextReducer u state (mkAction "detailDown" [("detailId", id)]) =
      .ok (setField "details" (.arr (u.updateDetailIndex
        (u.moveAt dets (u.getDetailIndex dets id) (u.getDetailIndex dets id + 1)))) state, []) := by
  have htag : ActionTag.ofVal (Val.optGet (mkAction "detailDown" [("detailId", id)]) "type") =
      some .detailDown := rfl
  have hid : Val.prop (mkAction "detailDown" [("detailId", id)]) "detailId" = id := rfl
  unfold callBasicContextReducer
  rw [htag]
  simp only [hid, hd, Val.asArray]

/-- C5 as stated fails (with the helpers as the spec describes them): two
details that both carry display order 7 come back from `detailUp` followed by
`detailDown` in their order but numbered 1 and 2; and whatever number the
helper counts from, the display orders after the two moves are not 7 and 7. -/
theorem move_round_trip_renumbers :
    callBasicContextReducer (specUtil 1) unorderedState
        (mkAction "detailUp" [("detailId", .str "d2")]) =
      .ok ([("isNew", .bool false),
            ("details", .arr [mkDetail "d2" (.num 1), mkDetail "d1" (.num 2)]),
            ("messages", .arr []),
            ("discussions", .arr [])], []) ∧
    callBasicContextReducer (specUtil 1)
        [("isNew", .bool false),
         ("details", .arr [mkDetail "d2" (.num 1), mkDetail "d1" (.num 2)]),
         ("messages", .arr []),
         ("discussions", .arr [])]
        (mkAction "detailDown" [("detailId", .str "d2")]) =
      .ok ([("isNew", .bool false),
            ("details", .arr [mkDetail "d1" (.num 1), mkDetail "d2" (.num 2)]),
            ("messages", .arr []),
            ("discussions", .arr [])], []) ∧
    Val.arr [mkDetail "d1" (.num 1), mkDetail "d2" (.num 2)] ≠
      getField "details" unorderedState ∧
    (∀ base : Int, ∃ s1 s2,
      callBasicContextReducer (specUtil base) unorderedState
        (mkAction "detailUp" [("detailId", .str "d2")]) = .ok (s1, []) ∧
      callBasicContextReducer (specUtil base) s1
        (mkAction "detailDown" [("detailId", .str "d2")]) = .ok (s2, []) ∧
      getField "details" s2 ≠ getField "details" unorderedState) := by
  refine ⟨rfl, rfl, ?_, ?_⟩
  · simp [unorderedState, getField, mkDetail]
  · intro base
    refine ⟨[("isNew", .bool false),
        ("details", .arr [mkDetail "d2" (.num base), mkDetail "d1" (.num (base + 1))]),
        ("messages", .arr []), ("discussions", .arr [])],
      [("isNew", .bool false),
        ("details", .arr [mkDetail "d1" (.num base), mkDetail "d2" (.num (base + 1))]),
        ("messages", .arr []), ("discussions", .arr [])], rfl, rfl, ?_⟩
    simp only [unorderedState, getField, mkDetail]
    intro h
    simp at h
    omega

/-- C5, amended (with the helpers as the spec describes them).  Let the
details of the state have pairwise distinct ids and let the detail with id
`detailId` stand at position `i`.  If it is not the first, `detailUp` followed
by `detailDown` with that id returns a state whose details are the previous
records in their previous order, each with its position (counted from `base`)
as `OCE__DisplayOrder__c`; if it is not the last, the same holds for
`detailDown` followed by `detailUp`.  So the display orders are those before
the two moves whenever the list was numbered by position before, and every
other field of the state is unchanged. -/
theorem move_round_trip (base : Int) (state : Obj) (dets : List Val) (detailId : Val)
    (i : Int)
    (hd : getField "details" state = .arr dets)
    (hdist : (dets.map (fun d => d.prop "Id")).Pairwise
      (fun a b => Val.strictEq a b = false))
    (hidx : getDetailIndex dets detailId = i) (h0 : 0 ≤ i) :
    (0 < i → ∃ s1 s2,
      callBasicContextReducer (specUtil base) state
        (mkAction "detailUp" [("detailId", detailId)]) = .ok (s1, []) ∧
      callBasicContextReducer (specUtil base) s1
        (mkAction "detailDown" [("detailId", detailId)]) = .ok (s2, []) ∧
      getField "details" s2 = .arr (updateDetailIndex base dets) ∧
      (updateDetailIndex base dets = dets → getField "details" s2 = .arr dets) ∧
      ∀ key, key ≠ "details" → getField key s2 = getField key state) ∧
    (i + 1 < dets.length → ∃ s1 s2,
      callBasicContextReducer (specUtil base) state
        (mkAction "detailDown" [("detailId", detailId)]) = .ok (s1, []) ∧
      callBasicContextReducer (specUtil base) s1
        (mkAction "detailUp" [("detailId", detailId)]) = .ok (s2, []) ∧
      getField "details" s2 = .arr (updateDetailIndex base dets) ∧
      (updateDetailIndex base dets = dets → getField "details" s2 = .arr dets) ∧
      ∀ key, key ≠ "details" → getField key s2 = getField key state) := by
  constructor
  · intro hpos
    have h1 := reducer_detailUp (specUtil base) state detailId dets hd
    have h2 := reducer_detailDown (specUtil base) _ detailId _
      (getField_setField_self "details"
        (.arr ((specUtil base).updateDetailIndex ((specUtil base).moveAt dets
          ((specUtil base).getDetailIndex dets detailId)
          ((specUtil base).getDetailIndex dets detailId - 1)))) state)
    have hlist := up_then_down_list base dets detailId i hidx hpos
    have hres : getField "details" (setField "details"
        (.arr ((specUtil base).updateDetailIndex ((specUtil base).moveAt
          ((specUtil base).updateDetailIndex ((specUtil base).moveAt dets
            ((specUtil base).getDetailIndex dets detailId)
            ((specUtil base).getDetailIndex dets detailId - 1)))
          ((specUtil base).getDetailIndex ((specUtil base).updateDetailIndex
            ((specUtil base).moveAt dets ((specUtil base).getDetailIndex dets detailId)
              ((specUtil base).getDetailIndex dets detailId - 1))) detailId)
          ((specUtil base).getDetailIndex ((specUtil base).updateDetailIndex
            ((specUtil base).moveAt dets ((specUtil base).getDetailIndex dets detailId)
              ((specUtil base).getDetailIndex dets detailId - 1))) detailId + 1))))
        (setField "details"
          (.arr ((specUtil base).updateDetailIndex ((specUtil base).moveAt dets
            ((specUtil base).getDetailIndex dets detailId)
            ((specUtil base).getDetailIndex dets detailId - 1)))) state)) =
        .arr (updateDetailIndex base dets) := by
      rw [getField_setField_self]
      simp only [specUtil, hidx]
      rw [hlist]
    refine ⟨_, _, h1, h2, hres, ?_, ?_⟩
    · intro hfix
      rw [hres, hfix]
    · intro key hkey
      rw [getField_setField_ne (fun e => hkey e.symm),
        getField_setField_ne (fun e => hkey e.symm)]
  · intro hlast
    have h1 := reducer_detailDown (specUtil base) state detailId dets hd
    have h2 := reducer_detailUp (specUtil base) _ detailId _
      (getField_setField_self "details"
        (.arr ((specUtil base).updateDetailIndex ((specUtil base).moveAt dets
          ((specUtil base).getDetailIndex dets detailId)
          ((specUtil base).getDetailIndex dets detailId + 1)))) state)
    have hlist := down_then_up_list base dets detailId i hidx h0 hlast hdist
    have hres : getField "details" (setField "details"
        (.arr ((specUtil base).updateDetailIndex ((specUtil base).moveAt
          ((specUtil base).updateDetailIndex ((specUtil base).moveAt dets
            ((specUtil base).getDetailIndex dets detailId)
            ((specUtil base).getDetailIndex dets detailId + 1)))
          ((specUtil base).getDetailIndex ((specUtil base).updateDetailIndex
            ((specUtil base).moveAt dets ((specUtil base).getDetailIndex dets detailId)
              ((specUtil base).getDetailIndex dets detailId + 1))) detailId)
          ((specUtil base).getDetailIndex ((specUtil base).updateDetailIndex
            ((specUtil base).moveAt dets ((specUtil base).getDetailIndex dets detailId)
              ((specUtil base).getDetailIndex dets detailId + 1))) detailId - 1))))
        (setField "details"
          (.arr ((specUtil base).updateDetailIndex ((specUtil base).moveAt dets
            ((specUtil base).getDetailIndex dets detailId)
            ((specUtil base).getDetailIndex dets detailId + 1)))) state)) =
        .arr (updateDetailIndex base dets) := by
      rw [getField_setField_self]
      simp only [specUtil, hidx]
      rw [hlist]
    refine ⟨_, _, h1, h2, hres, ?_, ?_⟩
    · intro hfix
      rw [hres, hfix]
    · intro key hkey
      rw [getField_setField_ne (fun e => hkey e.symm),
        getField_setField_ne (fun e => hkey e.symm)]

/-- Witness of the amended C5: detail `d2`, second of two details numbered 1
and 2, moved up and down again. -/
theorem move_round_trip_witness :
    getField "details" sampleState = .arr [mkDetail "d1" (.num 1), mkDetail "d2" (.num 2)] ∧
    ([mkDetail "d1" (.num 1), mkDetail "d2" (.num 2)].map (fun d => d.prop "Id")).Pairwise
      (fun a b => Val.strictEq a b = false) ∧
    getDetailIndex [mkDetail "d1" (.num 1), mkDetail "d2" (.num 2)] (.str "d2") = 1 ∧
    ∃ s1 s2,
      callBasicContextReducer (specUtil 1) sampleState
        (mkAction "detailUp" [("detailId", .str "d2")]) = .ok (s1, []) ∧
      callBasicContextReducer (specUtil 1) s1
        (mkAction "detailDown" [("detailId", .str "d2")]) = .ok (s2, []) ∧
      getField "details" s2 =
        .arr (updateDetailIndex 1 [mkDetail "d1" (.num 1), mkDetail "d2" (.num 2)]) ∧
      (updateDetailIndex 1 [mkDetail "d1" (.num 1), mkDetail "d2" (.num 2)] =
          [mkDetail "d1" (.num 1), mkDetail "d2" (.num 2)] →
        getField "details" s2 = .arr [mkDetail "d1" (.num 1), mkDetail "d2" (.num 2)]) ∧
      ∀ key, key ≠ "details" → getField key s2 = getField key sampleState :=
  have hpair : ([mkDetail "d1" (.num 1), mkDetail "d2" (.num 2)].map
      (fun d => d.prop "Id")).Pairwise (fun a b => Val.strictEq a b = false) := by
    decide
  ⟨rfl, hpair, rfl,
    (move_round_trip 1 sampleState [mkDetail "d1" (.num 1), mkDetail "d2" (.num 2)]
      (.str "d2") 1 rfl hpair rfl (by decide)).1 (by decide)⟩

/-! ### The existing-record branch on a well-formed bundle -/

theorem mapE_eq_map (f : Val → Val) (cb : Val → Except Err Val) :
    ∀ xs : List Val, (∀ x ∈ xs, cb x = .ok (f x)) → mapE cb xs = .ok (xs.map f) := by
  intro xs
  induction xs with
  | nil => intro _; rfl
  | cons x xs ih =>
    intro h
    have hx : cb x = .ok (f x) := h x (List.mem_cons_self _ _)
    have hxs := ih (fun y hy => h y (List.mem_cons_of_mem _ hy))
    simp only [mapE, hx, hxs, List.map_cons]

theorem attendeeOf_ok (a : Val) (h : attendeeOk a = true) :
    attendeeOf a = .ok (attendeeRecord a) := by
  simp only [attendeeOk, Bool.and_eq_true, Bool.not_eq_true'] at h
  simp [attendeeOf, attendeeRecord, Val.get, h.1, h.2]

theorem employeeOf_ok (e : Val) (h : employeeOk e = true) :
    employeeOf e = .ok (employeeRecord e) := by
  simp only [employeeOk, Bool.and_eq_true, Bool.not_eq_true'] at h
  simp [employeeOf, employeeRecord, Val.get, h.1, h.2]

theorem itemOf_ok (env : Env) (x : Val) (h : itemOk x = true) :
    itemOf env x = .ok (itemRecord env x) := by
  simp only [itemOk, Bool.and_eq_true, Bool.not_eq_true', Bool.or_eq_true] at h
  obtain ⟨h1, h2⟩ := h
  by_cases ht : (x.prop "OCE__Item__c").truthy = true
  · have h3 : (x.prop "OCE__Item__r").isNullish = false := by
      rcases h2 with h2 | h2
      · rw [ht] at h2; cases h2
      · exact h2
    simp [itemOf, itemRecord, Val.get, h1, ht, h3]
  · simp [itemOf, itemRecord, Val.get, h1, ht]

theorem isArrayOf_elems {p : Val → Bool} {v : Val} (h : v.isArrayOf p = true) :
    v = .arr v.elems ∧ ∀ x ∈ v.elems, p x = true := by
  cases v <;> simp_all [Val.isArrayOf, Val.elems]

theorem isObject_spread {v : Val} (h : v.isObject = true) : v = .obj (spread v) := by
  cases v <;> simp_all [Val.isObject, spread]

/-- A property whose value survives serialisation is read from the clone as
the clone of its value. -/
theorem getField_jsonObject (k : String) (fs : Obj) (h : complianceOk (getField k fs) = true ∨
    getField k fs = .null) :
    getField k (jsonObject fs) = jsonValue (getField k fs) := by
  induction fs with
  | nil => rcases h with h | h <;> simp [getField, complianceOk] at h
  | cons p fs ih =>
    obtain ⟨a, v⟩ := p
    by_cases ha : a = k
    · simp only [getField, ha, if_true] at h ⊢
      cases v <;> simp_all [jsonObject, getField, complianceOk]
    · simp only [getField, ha, if_false] at h ⊢
      cases v <;> simp [jsonObject, getField, ha, ih h]

theorem jsonValue_nullish_of_ok (x : Val) (h : complianceOk x = true) :
    (jsonValue x).isNullish = false := by
  cases x <;> simp_all [complianceOk, jsonValue, Val.isNullish]

theorem mem_jsonArray {y : Val} {xs : List Val} (h : y ∈ jsonArray xs) :
    ∃ x ∈ xs, y = jsonValue x := by
  induction xs with
  | nil => simp [jsonArray] at h
  | cons x xs ih =>
    simp only [jsonArray, List.mem_cons] at h
    rcases h with h | h
    · exact ⟨x, List.mem_cons_self _ _, h⟩
    · obtain ⟨z, hz, hy⟩ := ih h
      exact ⟨z, List.mem_cons_of_mem _ hz, hy⟩

theorem hasRecordType_ok (id r : Val) (h : r.isNullish = false) :
    hasRecordType id r = .ok (Val.strictEq (r.prop "RecordTypeId") id) := by
  simp [hasRecordType, Val.get, h]

theorem prop_obj (fs : Obj) (k : String) : (Val.obj fs).prop k = getField k fs := rfl

theorem get_obj (fs : Obj) (k : String) : (Val.obj fs).get k = .ok (getField k fs) := rfl

theorem wellFormedBundle_obj {callData : Val} (hwf : wellFormedBundle callData = true) :
    ∃ fs, callData = .obj fs := by
  simp only [wellFormedBundle, Bool.and_eq_true] at hwf
  obtain ⟨⟨⟨⟨⟨⟨⟨hcall, _⟩, _⟩, _⟩, _⟩, _⟩, _⟩, _⟩ := hwf
  cases callData with
  | obj fs => exact ⟨fs, rfl⟩
  | _ => simp [Val.prop, Val.isObject] at hcall

theorem originalDataOf_wellFormed (env : Env) (callData : Val)
    (hwf : wellFormedBundle callData = true) :
    originalDataOf env (jsonValue callData) = .ok (originalDataRecord env callData) := by
  obtain ⟨fs, rfl⟩ := wellFormedBundle_obj hwf
  simp only [wellFormedBundle, Bool.and_eq_true] at hwf
  obtain ⟨⟨⟨⟨⟨⟨⟨_, _⟩, _⟩, _⟩, _⟩, _⟩, hcomp⟩, _⟩ := hwf
  obtain ⟨hcs, hok⟩ := isArrayOf_elems hcomp
  rw [prop_obj] at hcs hok
  have hclone : getField "compliances" (jsonObject fs) =
      .arr (jsonArray (getField "compliances" fs).elems) := by
    rw [getField_jsonObject "compliances" fs (by rw [hcs]; exact Or.inl rfl)]
    generalize getField "compliances" fs = c at hcs
    rw [hcs]
    simp [jsonValue, Val.elems]
  have hfilter : ∀ id, filterE (hasRecordType id)
      (jsonArray (getField "compliances" fs).elems) =
      .ok ((jsonArray (getField "compliances" fs).elems).filter
        (fun r => Val.strictEq (r.prop "RecordTypeId") id)) := by
    intro id
    apply filterE_eq_filter
    intro y hy
    obtain ⟨x, hx, rfl⟩ := mem_jsonArray hy
    exact hasRecordType_ok id _ (jsonValue_nullish_of_ok x (hok x hx))
  simp only [originalDataOf, originalDataRecord, jsonValue, get_obj, prop_obj,
    hclone, Val.asArray, hfilter]
  rfl

theorem isArrayOf_arr {p : Val → Bool} {v : Val} (h : v.isArrayOf p = true) :
    ∃ xs, v = .arr xs ∧ ∀ x ∈ xs, p x = true := by
  cases v <;> simp_all [Val.isArrayOf]

theorem isObject_obj {v : Val} (h : v.isObject = true) : ∃ fs, v = .obj fs := by
  cases v <;> simp_all [Val.isObject]

theorem jsonRoundTrip_arr (xs : List Val) :
    jsonRoundTrip (.arr xs) = .ok (jsonValue (.arr xs)) := rfl

theorem jsonRoundTrip_obj (fs : Obj) :
    jsonRoundTrip (.obj fs) = .ok (jsonValue (.obj fs)) := rfl

/-- On a well-formed bundle the existing-record branch returns, and what it
returns is `newStateOf`. -/
theorem loadExisting_wellFormed (env : Env) (callData : Val)
    (hwf : wellFormedBundle callData = true) :
    loadExisting env callData = .ok (newStateOf env callData) := by
  have horig := originalDataOf_wellFormed env callData hwf
  obtain ⟨fs, rfl⟩ := wellFormedBundle_obj hwf
  simp only [wellFormedBundle, Bool.and_eq_true] at hwf
  obtain ⟨⟨⟨⟨⟨⟨⟨hcall, hatt⟩, hemp⟩, hitem⟩, hmsg⟩, hdis⟩, hcomp⟩, hdet⟩ := hwf
  obtain ⟨cfs, hcfs⟩ := isObject_obj hcall
  obtain ⟨as, has, hasok⟩ := isArrayOf_arr hatt
  obtain ⟨es, hes, hesok⟩ := isArrayOf_arr hemp
  obtain ⟨is, his, hisok⟩ := isArrayOf_arr hitem
  obtain ⟨ms, hms, -⟩ := isArrayOf_arr hmsg
  obtain ⟨ds, hds, -⟩ := isArrayOf_arr hdis
  obtain ⟨cs, hcs, -⟩ := isArrayOf_arr hcomp
  obtain ⟨ts, hts, -⟩ := isArrayOf_arr hdet
  have hma := mapE_eq_map attendeeRecord attendeeOf as (fun x hx => attendeeOf_ok x (hasok x hx))
  have hme := mapE_eq_map employeeRecord employeeOf es (fun x hx => employeeOf_ok x (hesok x hx))
  have hmi := mapE_eq_map (itemRecord env) (itemOf env) is
    (fun x hx => itemOf_ok env x (hisok x hx))
  rw [prop_obj] at hcfs has hes his hms hds hcs hts
  unfold loadExisting newStateOf mainDataOf
  rw [jsonRoundTrip_obj]
  simp only [bind, Except.bind, horig, get_obj, prop_obj]
  simp only [hcfs, has, hes, his, hms, hds, hcs, hts, Val.asArray, hma, hme, hmi,
    jsonRoundTrip_arr, reshapeCall, Val.assign, spread, Val.elems, pure, Except.pure, get_obj,
    prop_obj]

/-! ### The initializer as a whole -/

theorem initializeAsync_existing (env : Env) (id isNew callLayoutKey params callData : Val)
    (hid : id.truthy = true) (hnew : isNew.truthy = false)
    (hfetch : env.getDetailAsync id callLayoutKey = .ok callData)
    (hwf : wellFormedBundle callData = true) :
    initializeAsync env id isNew callLayoutKey params =
      ⟨[mkAction "dataloaded" [("newState", .obj (newStateOf env callData))]], .ok ()⟩ := by
  unfold initializeAsync
  simp only [hid, hnew, hfetch, loadExisting_wellFormed env callData hwf, Bool.not_false,
    Bool.and_self, if_true, mkAction]

theorem createNewCallAsync_ok (env : Env) (params : Val) (hp : params.isNullish = false) :
    ∃ ns, createNewCallAsync env params = .ok ns ∧
      getField "readOnly" ns = .bool false ∧
      getField "editState" ns = env.editStateEdit ∧
      getField "isOwner" ns = .bool true := by
  unfold createNewCallAsync
  simp only [Val.get, hp]
  exact ⟨_, rfl, rfl, rfl, rfl⟩

theorem initializeAsync_new (env : Env) (id isNew callLayoutKey params : Val)
    (hid : id.truthy = false) (hnew : isNew.truthy = true) :
    initializeAsync env id isNew callLayoutKey params =
      match createNewCallAsync env params with
      | .error e => ⟨[], .error e⟩
      | .ok ns => ⟨[mkAction "dataloaded" [("newState", .obj ns)]], .ok ()⟩ := by
  unfold initializeAsync
  simp only [hid, hnew, Bool.not_true, Bool.and_false, Bool.false_and, Bool.not_false,
    Bool.and_self, if_true, mkAction]
  rfl

theorem createNewCallAsync_nullish (env : Env) (params : Val)
    (hp : params.isNullish = true) : createNewCallAsync env params = .error .typeError := by
  unfold createNewCallAsync
  simp only [Val.get, hp, if_true]

/-- C3 as stated fails: with no `id`, `isNew` true and `params` null (the
value that the provider's `defaultProps` give it), the pair is valid and yet
`initializeAsync` throws, a `TypeError` from reading `params.territory`, and
calls `callBasicDispatch` not once but never. -/
theorem initializeAsync_new_without_params :
    Val.truthy .null = false ∧ Val.truthy (.bool true) = true ∧
    initializeAsync sampleEnv .null (.bool true) (.str "layout") .null =
      ⟨[], .error .typeError⟩ :=
  ⟨rfl, rfl, rfl⟩

/-- C3, amended.  `initializeAsync` throws its `id`/`isNew` error and
dispatches nothing when `id` and `isNew` are both truthy or both falsy.  With
`id` truthy and `isNew` falsy it returns normally after exactly one call of
`callBasicDispatch`, with an action of type `dataloaded`, when the fetch yields
a well-formed bundle, and throws the rejection, dispatching nothing, when the
fetch is rejected.  With `id` falsy and `isNew` truthy it returns normally
after exactly one such call when `params` is not null or undefined, and throws
a `TypeError`, dispatching nothing, when it is.  In every run
`callBasicDispatch` is called exactly once, with a `dataloaded` action, if the
run returns normally, and not at all if it throws. -/
theorem initializeAsync_outcomes (env : Env) (id isNew callLayoutKey params : Val) :
    (((id.truthy = true ∧ isNew.truthy = true) ∨ (id.truthy = false ∧ isNew.truthy = false)) →
      initializeAsync env id isNew callLayoutKey params =
        ⟨[], .error (.invalidIdIsNew id isNew)⟩) ∧
    (id.truthy = true → isNew.truthy = false →
      ∀ callData, env.getDetailAsync id callLayoutKey = .ok callData →
        wellFormedBundle callData = true →
        ∃ ns, initializeAsync env id isNew callLayoutKey params =
          ⟨[mkAction "dataloaded" [("newState", .obj ns)]], .ok ()⟩) ∧
    (id.truthy = true → isNew.truthy = false →
      ∀ e, env.getDetailAsync id callLayoutKey = .error e →
        initializeAsync env id isNew callLayoutKey params = ⟨[], .error e⟩) ∧
    (id.truthy = false → isNew.truthy = true → params.isNullish = false →
      ∃ ns, initializeAsync env id isNew callLayoutKey params =
        ⟨[mkAction "dataloaded" [("newState", .obj ns)]], .ok ()⟩) ∧
    (id.truthy = false → isNew.truthy = true → params.isNullish = true →
      initializeAsync env id isNew callLayoutKey params = ⟨[], .error .typeError⟩) ∧
    (∀ e, (initializeAsync env id isNew callLayoutKey params).outcome = .error e →
      (initializeAsync env id isNew callLayoutKey params).dispatched = []) ∧
    ((initializeAsync env id isNew callLayoutKey params).outcome = .ok () →
      ∃ ns, (initializeAsync env id isNew callLayoutKey params).dispatched =
        [mkAction "dataloaded" [("newState", .obj ns)]]) := by
  refine ⟨?_, ?_, ?_, ?_, ?_, ?_, ?_⟩
  · intro h
    unfold initializeAsync
    rcases h with ⟨h1, h2⟩ | ⟨h1, h2⟩ <;> simp [h1, h2]
  · intro hid hnew callData hfetch hwf
    exact ⟨_, initializeAsync_existing env id isNew callLayoutKey params callData hid hnew
      hfetch hwf⟩
  · intro hid hnew e hfetch
    unfold initializeAsync
    simp only [hid, hnew, hfetch, Bool.not_false, Bool.and_self, if_true]
  · intro hid hnew hp
    obtain ⟨ns, hns, -⟩ := createNewCallAsync_ok env params hp
    refine ⟨ns, ?_⟩
    rw [initializeAsync_new env id isNew callLayoutKey params hid hnew, hns]
  · intro hid hnew hp
    rw [initializeAsync_new env id isNew callLayoutKey params hid hnew,
      createNewCallAsync_nullish env params hp]
  · intro e he
    unfold initializeAsync at he ⊢
    simp only at he ⊢
    split at he
    · rfl
    · cases he
  · intro hok
    unfold initializeAsync at hok ⊢
    simp only at hok ⊢
    split at hok
    · cases hok
    · exact ⟨_, rfl⟩

/-- Witness of the amended C3: an existing record (`id` given, `isNew` false, the sample
bundle fetched), a new record (`isNew` true, no `id`), and the invalid pair of
an `id` together with `isNew` true. -/
theorem initializeAsync_outcomes_witness :
    (Val.truthy (.str "c1") = true ∧ Val.truthy (.bool false) = false ∧
      sampleEnv.getDetailAsync (.str "c1") (.str "layout") = .ok sampleBundle ∧
      wellFormedBundle sampleBundle = true ∧
      ∃ ns, initializeAsync sampleEnv (.str "c1") (.bool false) (.str "layout") .null =
        ⟨[mkAction "dataloaded" [("newState", .obj ns)]], .ok ()⟩) ∧
    (Val.truthy .null = false ∧ Val.truthy (.bool true) = true ∧
      Val.isNullish sampleParams = false ∧
      ∃ ns, initializeAsync sampleEnv .null (.bool true) (.str "layout") sampleParams =
        ⟨[mkAction "dataloaded" [("newState", .obj ns)]], .ok ()⟩) ∧
    initializeAsync sampleEnv (.str "c1") (.bool true) (.str "layout") sampleParams =
      ⟨[], .error (.invalidIdIsNew (.str "c1") (.bool true))⟩ :=
  ⟨⟨rfl, rfl, rfl, rfl,
      (initializeAsync_outcomes sampleEnv (.str "c1") (.bool false) (.str "layout") .null).2.1
        rfl rfl sampleBundle rfl rfl⟩,
    ⟨rfl, rfl, rfl,
      (initializeAsync_outcomes sampleEnv .null (.bool true) (.str "layout")
        sampleParams).2.2.2.1 rfl rfl rfl⟩,
    (initializeAsync_outcomes sampleEnv (.str "c1") (.bool true) (.str "layout") sampleParams).1
      (Or.inl ⟨rfl, rfl⟩)⟩

theorem strictNe_str_iff (t : Val) (s : String) :
    Val.strictNe t (.str s) = true ↔ t ≠ .str s := by
  unfold Val.strictNe
  rw [Bool.not_eq_true', ← Bool.not_eq_true, strictEq_str_iff]

/-- C9. In the `newState` that `initializeAsync` dispatches for a fetched
existing record, `readOnly` is true exactly when the record's
`OCE__Status__c` is not `Draft` or its `OwnerId` is not (`!==`) the current
user's id; `editState` is `EditStates.View` when `readOnly` is true and
`EditStates.Edit` when it is false; and when `readOnly` is false the record is
a `Draft` whose `OwnerId` is the current user's id, with `isOwner` true.  For
a new record `readOnly` is false, `editState` is `EditStates.Edit` and
`isOwner` is true. -/
theorem readOnly_from_status_and_owner (env : Env) (id isNew callLayoutKey params : Val) :
    (id.truthy = true → isNew.truthy = false →
      ∀ callData, env.getDetailAsync id callLayoutKey = .ok callData →
        wellFormedBundle callData = true →
        ∃ ns, initializeAsync env id isNew callLayoutKey params =
            ⟨[mkAction "dataloaded" [("newState", .obj ns)]], .ok ()⟩ ∧
          (getField "readOnly" ns = .bool true ∨ getField "readOnly" ns = .bool false) ∧
          (getField "readOnly" ns = .bool true ↔
            ((callData.prop "call").prop "OCE__Status__c" ≠ .str "Draft" ∨
              Val.strictNe ((callData.prop "call").prop "OwnerId") env.userId = true)) ∧
          (getField "readOnly" ns = .bool true → getField "editState" ns = env.editStateView) ∧
          (getField "readOnly" ns = .bool false →
            getField "editState" ns = env.editStateEdit ∧
            (callData.prop "call").prop "OCE__Status__c" = .str "Draft" ∧
            Val.strictEq ((callData.prop "call").prop "OwnerId") env.userId = true ∧
            getField "isOwner" ns = .bool true)) ∧
    (id.truthy = false → isNew.truthy = true → params.isNullish = false →
      ∃ ns, initializeAsync env id isNew callLayoutKey params =
          ⟨[mkAction "dataloaded" [("newState", .obj ns)]], .ok ()⟩ ∧
        getField "readOnly" ns = .bool false ∧
        getField "editState" ns = env.editStateEdit ∧
        getField "isOwner" ns = .bool true) := by
  constructor
  · intro hid hnew callData hfetch hwf
    refine ⟨newStateOf env callData,
      initializeAsync_existing env id isNew callLayoutKey params callData hid hnew hfetch hwf,
      ?_⟩
    have hro : getField "readOnly" (newStateOf env callData) = .bool
        (Val.strictNe ((callData.prop "call").prop "OCE__Status__c") (.str "Draft") ||
         Val.strictNe ((callData.prop "call").prop "OwnerId") env.userId) := rfl
    have hes : getField "editState" (newStateOf env callData) =
        if (Val.strictNe ((callData.prop "call").prop "OCE__Status__c") (.str "Draft") ||
            Val.strictNe ((callData.prop "call").prop "OwnerId") env.userId) = true
        then env.editStateView else env.editStateEdit := rfl
    have hio : getField "isOwner" (newStateOf env callData) =
        .bool (Val.strictEq ((callData.prop "call").prop "OwnerId") env.userId) := rfl
    have hst := strictNe_str_iff ((callData.prop "call").prop "OCE__Status__c") "Draft"
    rw [hro, hes, hio]
    cases hs : Val.strictNe ((callData.prop "call").prop "OCE__Status__c") (.str "Draft") <;>
      cases ho : Val.strictNe ((callData.prop "call").prop "OwnerId") env.userId
    · have hstatus : (callData.prop "call").prop "OCE__Status__c" = .str "Draft" := by
        by_contra hne
        rw [hst.mpr hne] at hs
        cases hs
      have howner : Val.strictEq ((callData.prop "call").prop "OwnerId") env.userId = true := by
        unfold Val.strictNe at ho
        simpa using ho
      simp [hstatus, howner]
    · simp
    · have hstatus : (callData.prop "call").prop "OCE__Status__c" ≠ .str "Draft" := hst.mp hs
      simp [hstatus]
    · simp
  · intro hid hnew hp
    obtain ⟨ns, hns, h1, h2, h3⟩ := createNewCallAsync_ok env params hp
    refine ⟨ns, ?_, h1, h2, h3⟩
    rw [initializeAsync_new env id isNew callLayoutKey params hid hnew, hns]

/-- Witness of C9: the sample record is a `Draft` owned by the current user,
so it is loaded editable; and a new record. -/
theorem readOnly_from_status_and_owner_witness :
    (∃ ns, initializeAsync sampleEnv (.str "c1") (.bool false) (.str "layout") .null =
        ⟨[mkAction "dataloaded" [("newState", .obj ns)]], .ok ()⟩ ∧
      (getField "readOnly" ns = .bool true ∨ getField "readOnly" ns = .bool false) ∧
      (getField "readOnly" ns = .bool true ↔
        ((sampleBundle.prop "call").prop "OCE__Status__c" ≠ .str "Draft" ∨
          Val.strictNe ((sampleBundle.prop "call").prop "OwnerId") sampleEnv.userId = true)) ∧
      (getField "readOnly" ns = .bool true → getField "editState" ns = sampleEnv.editStateView) ∧
      (getField "readOnly" ns = .bool false →
        getField "editState" ns = sampleEnv.editStateEdit ∧
        (sampleBundle.prop "call").prop "OCE__Status__c" = .str "Draft" ∧
        Val.strictEq ((sampleBundle.prop "call").prop "OwnerId") sampleEnv.userId = true ∧
        getField "isOwner" ns = .bool true)) ∧
    (∃ ns, initializeAsync sampleEnv .null (.bool true) (.str "layout") sampleParams =
        ⟨[mkAction "dataloaded" [("newState", .obj ns)]], .ok ()⟩ ∧
      getField "readOnly" ns = .bool false ∧
      getField "editState" ns = sampleEnv.editStateEdit ∧
      getField "isOwner" ns = .bool true) :=
  ⟨(readOnly_from_status_and_owner sampleEnv (.str "c1") (.bool false) (.str "layout")
      .null).1 rfl rfl sampleBundle rfl rfl,
   (readOnly_from_status_and_owner sampleEnv .null (.bool true) (.str "layout")
      sampleParams).2 rfl rfl rfl⟩

/-! ### Multi-select fields -/

theorem getField_selectField_self (k : String) (fs : Obj) :
    getField k (selectField k fs) = toSelection (getField k fs) := by
  unfold selectField
  rw [getField_setField_self]

theorem getField_selectField_ne {k k' : String} (h : k ≠ k') (fs : Obj) :
    getField k' (selectField k fs) = getField k' fs := by
  unfold selectField
  rw [getField_setField_ne h]

theorem getField_blankIfNull_ne {k k' : String} (h : k ≠ k') (fs : Obj) :
    getField k' (blankIfNull k fs) = getField k' fs := by
  unfold blankIfNull
  split
  · rw [getField_setField_ne h]
  · rfl

/-- The four cases of the normalisation of a multi-select value. -/
theorem toSelection_cases (v : Val) :
    (v = .null ∨ v = .undefined ∨ v = .str "" → toSelection v = .arr []) ∧
    (∀ s, s ≠ "" → toSelection (.str s) = .arr [.str s]) ∧
    (v.truthy = true → toSelection v = .arr [v]) ∧
    ∃ xs, toSelection v = .arr xs ∧ xs.length ≤ 1 := by
  refine ⟨?_, ?_, ?_, ?_⟩
  · intro h
    rcases h with rfl | rfl | rfl <;> rfl
  · intro s hs
    simp [toSelection, Val.truthy, hs]
  · intro h
    simp [toSelection, h]
  · unfold toSelection
    split
    · exact ⟨[v], rfl, by simp⟩
    · exact ⟨[], rfl, by simp⟩

theorem mainDataOf_channel (env : Env) (callData : Val)
    (hcall : (callData.prop "call").isObject = true) :
    getField "OCE__Channel__c" (mainDataOf env callData) =
        toSelection ((callData.prop "call").prop "OCE__Channel__c") ∧
    getField "OCE__DurationPicklist__c" (mainDataOf env callData) =
        toSelection ((callData.prop "call").prop "OCE__DurationPicklist__c") := by
  obtain ⟨cfs, hcfs⟩ := isObject_obj hcall
  unfold mainDataOf
  rw [hcfs]
  simp only [spread, prop_obj]
  constructor
  · rw [getField_setField_ne (by decide), getField_blankIfNull_ne (by decide),
      getField_blankIfNull_ne (by decide), getField_selectField_ne (by decide),
      getField_selectField_self, getField_setField_ne (by decide)]
  · rw [getField_setField_ne (by decide), getField_blankIfNull_ne (by decide),
      getField_blankIfNull_ne (by decide), getField_selectField_self,
      getField_selectField_ne (by decide), getField_setField_ne (by decide)]

/-- C10. In the `newState` that `initializeAsync` dispatches for a fetched
bundle, each multi-select field is the normalisation of the fetched value `v`:
the empty sequence when `v` is null, absent or the empty string, `[v]` when
`v` is a non-empty string (or any other truthy value), and in every case a
sequence of at most one element.  This holds for `OCE__Channel__c` and
`OCE__DurationPicklist__c` of the call, `OCE__Reaction__c` and
`OCE__CustomReaction__c` of each message, `OCE__Topic__c` of each discussion
and `OCE__SurveyType__c` of each compliance record; and the loaded messages,
discussions and compliances are the fetched ones, one for one and in order. -/
theorem multiselect_normalised (env : Env) (id isNew callLayoutKey params callData : Val)
    (hid : id.truthy = true) (hnew : isNew.truthy = false)
    (hfetch : env.getDetailAsync id callLayoutKey = .ok callData)
    (hwf : wellFormedBundle callData = true) :
    ∃ ns md ms ds cs,
      initializeAsync env id isNew callLayoutKey params =
        ⟨[mkAction "dataloaded" [("newState", .obj ns)]], .ok ()⟩ ∧
      getField "mainData" ns = .obj md ∧
      getField "OCE__Channel__c" md =
        toSelection ((callData.prop "call").prop "OCE__Channel__c") ∧
      getField "OCE__DurationPicklist__c" md =
        toSelection ((callData.prop "call").prop "OCE__DurationPicklist__c") ∧
      callData.prop "messages" = .arr ms ∧
      callData.prop "discussions" = .arr ds ∧
      callData.prop "compliances" = .arr cs ∧
      getField "messages" ns = .arr (ms.map messageOf) ∧
      getField "discussions" ns = .arr (ds.map discussionOf) ∧
      getField "compliances" ns = .arr (cs.map complianceOf) ∧
      (ms.map messageOf).length = ms.length ∧
      (ds.map discussionOf).length = ds.length ∧
      (cs.map complianceOf).length = cs.length ∧
      (∀ m, (messageOf m).prop "OCE__Reaction__c" =
          toSelection (getField "OCE__Reaction__c" (spread m)) ∧
        (messageOf m).prop "OCE__CustomReaction__c" =
          toSelection (getField "OCE__CustomReaction__c" (spread m))) ∧
      (∀ d, (discussionOf d).prop "OCE__Topic__c" =
          toSelection (getField "OCE__Topic__c" (spread d))) ∧
      (∀ c, (complianceOf c).prop "OCE__SurveyType__c" =
          toSelection (getField "OCE__SurveyType__c" (spread c))) ∧
      (∀ v, (v = .null ∨ v = .undefined ∨ v = .str "" → toSelection v = .arr []) ∧
        (∀ s, s ≠ "" → toSelection (.str s) = .arr [.str s]) ∧
        (v.truthy = true → toSelection v = .arr [v]) ∧
        ∃ xs, toSelection v = .arr xs ∧ xs.length ≤ 1) := by
  have hwf' := hwf
  simp only [wellFormedBundle, Bool.and_eq_true] at hwf'
  obtain ⟨⟨⟨⟨⟨⟨⟨hcall, _⟩, _⟩, _⟩, hmsg⟩, hdis⟩, hcomp⟩, _⟩ := hwf'
  obtain ⟨ms, hms, -⟩ := isArrayOf_arr hmsg
  obtain ⟨ds, hds, -⟩ := isArrayOf_arr hdis
  obtain ⟨cs, hcs, -⟩ := isArrayOf_arr hcomp
  obtain ⟨hch, hdu⟩ := mainDataOf_channel env callData hcall
  refine ⟨newStateOf env callData, mainDataOf env callData, ms, ds, cs,
    initializeAsync_existing env id isNew callLayoutKey params callData hid hnew hfetch hwf,
    rfl, hch, hdu, hms, hds, hcs, ?_, ?_, ?_, List.length_map _ _, List.length_map _ _,
    List.length_map _ _, ?_, ?_, ?_, toSelection_cases⟩
  · have h : getField "messages" (newStateOf env callData) =
        .arr ((callData.prop "messages").elems.map messageOf) := rfl
    rw [h, hms]
    rfl
  · have h : getField "discussions" (newStateOf env callData) =
        .arr ((callData.prop "discussions").elems.map discussionOf) := rfl
    rw [h, hds]
    rfl
  · have h : getField "compliances" (newStateOf env callData) =
        .arr ((callData.prop "compliances").elems.map complianceOf) := rfl
    rw [h, hcs]
    rfl
  · intro m
    unfold messageOf
    rw [prop_obj, prop_obj]
    constructor
    · rw [getField_selectField_ne (by decide), getField_selectField_self]
    · rw [getField_selectField_self, getField_selectField_ne (by decide)]
  · intro d
    unfold discussionOf
    rw [prop_obj, getField_selectField_self, getField_blankIfNull_ne (by decide)]
  · intro c
    unfold complianceOf
    rw [prop_obj, getField_selectField_self]

/-- Witness of C10: in the sample bundle the channel is `Face To Face`, the
duration is null, and the only message has a reaction and no custom reaction. -/
theorem multiselect_normalised_witness :
    Val.truthy (.str "c1") = true ∧ Val.truthy (.bool false) = false ∧
    sampleEnv.getDetailAsync (.str "c1") (.str "layout") = .ok sampleBundle ∧
    wellFormedBundle sampleBundle = true ∧
    ∃ ns md,
      initializeAsync sampleEnv (.str "c1") (.bool false) (.str "layout") .null =
        ⟨[mkAction "dataloaded" [("newState", .obj ns)]], .ok ()⟩ ∧
      getField "mainData" ns = .obj md ∧
      getField "OCE__Channel__c" md = .arr [.str "Face To Face"] ∧
      getField "OCE__DurationPicklist__c" md = .arr [] ∧
      getField "messages" ns = .arr
        [.obj [("Id", .str "m1"), ("OCE__CallDetail__c", .str "d1"),
          ("OCE__Reaction__c", .arr [.str "Positive"]), ("OCE__CustomReaction__c", .arr [])]] := by
  refine ⟨rfl, rfl, rfl, rfl, ?_⟩
  obtain ⟨ns, md, ms, ds, cs, h1, h2, h3, h4, h5, -, -, h8, -⟩ :=
    multiselect_normalised sampleEnv (.str "c1") (.bool false) (.str "layout") .null
      sampleBundle rfl rfl rfl rfl
  have hms : Val.arr [.obj [("Id", .str "m1"), ("OCE__CallDetail__c", .str "d1"),
      ("OCE__Reaction__c", .str "Positive"), ("OCE__CustomReaction__c", .null)]] =
      .arr ms := h5
  injection hms with hms
  subst hms
  exact ⟨ns, md, h1, h2, h3, h4, h8⟩

/-! ### Snapshots taken at load -/

mutual
/-- JSON data is read back from its JSON text as it is. -/
theorem jsonValue_of_isJson : ∀ v : Val, isJson v = true → jsonValue v = v
  | .undefined, h => by simp [isJson] at h
  | .fn _, h => by simp [isJson] at h
  | .nan, h => by simp [isJson] at h
  | .arr xs, h => by
    simp only [isJson] at h
    simp only [jsonValue, jsonArray_of_isJson xs h]
  | .obj fs, h => by
    simp only [isJson] at h
    simp only [jsonValue, jsonObject_of_isJson fs h]
  | .null, _ => rfl
  | .bool _, _ => rfl
  | .num _, _ => rfl
  | .str _, _ => rfl
theorem jsonArray_of_isJson : ∀ xs : List Val, isJsonArray xs = true → jsonArray xs = xs
  | [], _ => rfl
  | x :: xs, h => by
    simp only [isJsonArray, Bool.and_eq_true] at h
    simp only [jsonArray, jsonValue_of_isJson x h.1, jsonArray_of_isJson xs h.2]
theorem jsonObject_of_isJson :
    ∀ fs : List (String × Val), isJsonObject fs = true → jsonObject fs = fs
  | [], _ => rfl
  | (k, v) :: fs, h => by
    simp only [isJsonObject, Bool.and_eq_true] at h
    have hv := jsonValue_of_isJson v h.1
    have hfs := jsonObject_of_isJson fs h.2
    have h1 := h.1
    cases v <;> simp_all [jsonObject, isJson]
end

theorem isJson_getField (k : String) (fs : Obj) (h : isJsonObject fs = true) :
    getField k fs = .undefined ∨ isJson (getField k fs) = true := by
  induction fs with
  | nil => exact Or.inl rfl
  | cons p fs ih =>
    obtain ⟨a, v⟩ := p
    simp only [isJsonObject, Bool.and_eq_true] at h
    by_cases ha : a = k
    · simp [getField, ha, h.1]
    · simp only [getField, ha, if_false]
      exact ih h.2

theorem isJsonObject_setField (k : String) (v : Val) (fs : Obj)
    (h : isJsonObject fs = true) (hv : isJson v = true) :
    isJsonObject (setField k v fs) = true := by
  induction fs with
  | nil => simp [setField, isJsonObject, hv]
  | cons p fs ih =>
    obtain ⟨a, w⟩ := p
    simp only [isJsonObject, Bool.and_eq_true] at h
    by_cases ha : a = k
    · simp [setField, ha, isJsonObject, hv, h.2]
    · simp [setField, ha, isJsonObject, h.1, ih h.2]

theorem isJson_toSelection (v : Val) (h : v = .undefined ∨ isJson v = true) :
    isJson (toSelection v) = true := by
  unfold toSelection
  split
  · rename_i ht
    rcases h with rfl | h
    · simp [Val.truthy] at ht
    · simp [isJson, isJsonArray, h]
  · rfl

theorem isJsonObject_selectField (k : String) (fs : Obj) (h : isJsonObject fs = true) :
    isJsonObject (selectField k fs) = true :=
  isJsonObject_setField k _ fs h (isJson_toSelection _ (isJson_getField k fs h))

theorem isJsonObject_blankIfNull (k : String) (fs : Obj) (h : isJsonObject fs = true) :
    isJsonObject (blankIfNull k fs) = true := by
  unfold blankIfNull
  split
  · exact isJsonObject_setField k _ fs h rfl
  · exact h

theorem isJsonObject_zipWith_arr :
    ∀ (xs : List Val) (is : List Nat), isJsonArray xs = true →
      isJsonObject (List.zipWith (fun i x => (toString i, x)) is xs) = true := by
  intro xs
  induction xs with
  | nil => intro is _; cases is <;> rfl
  | cons x xs ih =>
    intro is h
    simp only [isJsonArray, Bool.and_eq_true] at h
    cases is with
    | nil => rfl
    | cons i is => simp [List.zipWith, isJsonObject, h.1, ih is h.2]

theorem isJsonObject_zipWith_str :
    ∀ (cs : List Char) (is : List Nat),
      isJsonObject (List.zipWith (fun i c => (toString i, Val.str (String.singleton c))) is cs) =
        true := by
  intro cs
  induction cs with
  | nil => intro is; cases is <;> rfl
  | cons c cs ih =>
    intro is
    cases is with
    | nil => rfl
    | cons i is => simp [List.zipWith, isJsonObject, isJson, ih is]

theorem isJsonObject_spread (v : Val) (h : isJson v = true) :
    isJsonObject (spread v) = true := by
  cases v with
  | obj fs => simpa [isJson, spread] using h
  | arr xs =>
    simp only [isJson] at h
    exact isJsonObject_zipWith_arr xs _ h
  | str s => exact isJsonObject_zipWith_str s.data _
  | _ => rfl

theorem isJson_messageOf (v : Val) (h : isJson v = true) : isJson (messageOf v) = true := by
  unfold messageOf
  simp only [isJson]
  exact isJsonObject_selectField _ _ (isJsonObject_selectField _ _ (isJsonObject_spread v h))

theorem isJson_discussionOf (v : Val) (h : isJson v = true) :
    isJson (discussionOf v) = true := by
  unfold discussionOf
  simp only [isJson]
  exact isJsonObject_selectField _ _ (isJsonObject_blankIfNull _ _ (isJsonObject_spread v h))

theorem isJson_complianceOf (v : Val) (h : isJson v = true) :
    isJson (complianceOf v) = true := by
  unfold complianceOf
  simp only [isJson]
  exact isJsonObject_selectField _ _ (isJsonObject_spread v h)

theorem isJsonArray_map (f : Val → Val) (hf : ∀ v, isJson v = true → isJson (f v) = true) :
    ∀ xs : List Val, isJsonArray xs = true → isJsonArray (xs.map f) = true := by
  intro xs
  induction xs with
  | nil => intro _; rfl
  | cons x xs ih =>
    intro h
    simp only [isJsonArray, Bool.and_eq_true] at h
    simp [isJsonArray, hf x h.1, ih h.2]

/-- In a bundle of JSON data, a list that is an array is an array of JSON data. -/
theorem isJsonArray_of_bundle (callData : Val) (k : String) (xs : List Val)
    (hj : isJson callData = true) (hk : callData.prop k = .arr xs) :
    isJsonArray xs = true := by
  cases callData with
  | obj fs =>
    simp only [isJson] at hj
    rw [prop_obj] at hk
    rcases isJson_getField k fs hj with h | h
    · rw [hk] at h; cases h
    · rw [hk] at h
      simpa [isJson] using h
  | _ => simp [Val.prop] at hk

theorem setField_getField (k : String) (fs : Obj) (h : getField k fs ≠ .undefined) :
    setField k (getField k fs) fs = fs := by
  induction fs with
  | nil => simp [getField] at h
  | cons p fs ih =>
    obtain ⟨a, v⟩ := p
    by_cases ha : a = k
    · simp [setField, getField, ha]
    · simp only [getField, ha, if_false] at h
      simp [setField, getField, ha, ih h]

theorem detailOf_fixed (env : Env) (fs : Obj) (n : Int) (hn : n.natAbs ≤ maxExactInt)
    (h : getField "OCE__DisplayOrder__c" fs = .num n) : detailOf env (.obj fs) = .obj fs := by
  unfold detailOf
  simp only [spread, h, parseInt, hn, if_true]
  rw [← h, setField_getField _ _ (by rw [h]; simp)]

/-- C6.  The code at two fetched bundles that differ from the sample bundle
only in the display order of the detail.  With the display order `"2"`, the
string that `parseInt` turns into a number, the loaded `details` carry the
number 2 while `originalDetails`, which is the list as fetched, carries the
string; with the display order null, `details` carry `NaN` against null.  In
both states `details` differs from `originalDetails` right after the load,
while `items`, `messages`, `discussions` and `compliances`, whose snapshots
are taken from the reshaped lists, equal their snapshots. -/
theorem loaded_details_differ_from_original :
    (wellFormedBundle (sampleBundleWith (.str "2")) = true ∧
      ∃ ns, initializeAsync (sampleEnvWith (sampleBundleWith (.str "2"))) (.str "c1")
            (.bool false) (.str "layout") .null =
          ⟨[mkAction "dataloaded" [("newState", .obj ns)]], .ok ()⟩ ∧
        getField "details" ns =
          .arr [.obj [("Id", .str "d1"), ("OCE__DisplayOrder__c", .num 2)]] ∧
        getField "originalDetails" ns =
          .arr [.obj [("Id", .str "d1"), ("OCE__DisplayOrder__c", .str "2")]] ∧
        getField "details" ns ≠ getField "originalDetails" ns ∧
        getField "items" ns = getField "originalItems" ns ∧
        getField "messages" ns = getField "originalMessages" ns ∧
        getField "discussions" ns = getField "originalDiscussions" ns ∧
        getField "compliances" ns = getField "originalCompliances" ns) ∧
    (wellFormedBundle (sampleBundleWith .null) = true ∧
      ∃ ns, initializeAsync (sampleEnvWith (sampleBundleWith .null)) (.str "c1")
            (.bool false) (.str "layout") .null =
          ⟨[mkAction "dataloaded" [("newState", .obj ns)]], .ok ()⟩ ∧
        getField "details" ns =
          .arr [.obj [("Id", .str "d1"), ("OCE__DisplayOrder__c", .nan)]] ∧
        getField "originalDetails" ns =
          .arr [.obj [("Id", .str "d1"), ("OCE__DisplayOrder__c", .null)]] ∧
        getField "details" ns ≠ getField "originalDetails" ns) := by
  constructor
  · refine ⟨rfl, newStateOf (sampleEnvWith (sampleBundleWith (.str "2")))
        (sampleBundleWith (.str "2")),
      initializeAsync_existing _ _ _ _ _ (sampleBundleWith (.str "2")) rfl rfl rfl rfl,
      rfl, rfl, ?_, rfl, rfl, rfl, rfl⟩
    have h1 : getField "details" (newStateOf (sampleEnvWith (sampleBundleWith (.str "2")))
        (sampleBundleWith (.str "2"))) =
        .arr [.obj [("Id", .str "d1"), ("OCE__DisplayOrder__c", .num 2)]] := rfl
    have h2 : getField "originalDetails"
        (newStateOf (sampleEnvWith (sampleBundleWith (.str "2")))
          (sampleBundleWith (.str "2"))) =
        .arr [.obj [("Id", .str "d1"), ("OCE__DisplayOrder__c", .str "2")]] := rfl
    rw [h1, h2]
    simp
  · refine ⟨rfl, newStateOf (sampleEnvWith (sampleBundleWith .null)) (sampleBundleWith .null),
      initializeAsync_existing _ _ _ _ _ (sampleBundleWith .null) rfl rfl rfl rfl, rfl, rfl,
      ?_⟩
    have h1 : getField "details"
        (newStateOf (sampleEnvWith (sampleBundleWith .null)) (sampleBundleWith .null)) =
        .arr [.obj [("Id", .str "d1"), ("OCE__DisplayOrder__c", .nan)]] := rfl
    have h2 : getField "originalDetails"
        (newStateOf (sampleEnvWith (sampleBundleWith .null)) (sampleBundleWith .null)) =
        .arr [.obj [("Id", .str "d1"), ("OCE__DisplayOrder__c", .null)]] := rfl
    rw [h1, h2]
    simp

/-- How the snapshots of a loaded state relate to the current values, for
every well-formed fetched bundle: `mainData`, `attendees` and
`employeeAttendees` equal their snapshots; `originalItems`, `originalMessages`,
`originalDiscussions` and `originalCompliances` are the JSON round trips of
`items`, `messages`, `discussions` and `compliances`, hence equal to them
whenever these hold JSON data only, which for messages, discussions and
compliances is the case whenever the fetched bundle is JSON data;
`originalDetails` is the fetched list as it came, while `details` is that list
with `parseInt` applied to each `OCE__DisplayOrder__c`, which leaves a record
as it is when its display order is an integer up to `maxExactInt`. -/
theorem snapshots_after_load (env : Env) (id isNew callLayoutKey params callData : Val)
    (hid : id.truthy = true) (hnew : isNew.truthy = false)
    (hfetch : env.getDetailAsync id callLayoutKey = .ok callData)
    (hwf : wellFormedBundle callData = true) :
    ∃ ns,
      initializeAsync env id isNew callLayoutKey params =
        ⟨[mkAction "dataloaded" [("newState", .obj ns)]], .ok ()⟩ ∧
      getField "mainData" ns = getField "originalMainData" ns ∧
      getField "attendees" ns = getField "originalAttendees" ns ∧
      getField "employeeAttendees" ns = getField "originalEmployeeAttendees" ns ∧
      getField "originalItems" ns = jsonValue (getField "items" ns) ∧
      getField "originalMessages" ns = jsonValue (getField "messages" ns) ∧
      getField "originalDiscussions" ns = jsonValue (getField "discussions" ns) ∧
      getField "originalCompliances" ns = jsonValue (getField "compliances" ns) ∧
      (isJson (getField "items" ns) = true →
        getField "items" ns = getField "originalItems" ns) ∧
      (isJson callData = true →
        getField "messages" ns = getField "originalMessages" ns ∧
        getField "discussions" ns = getField "originalDiscussions" ns ∧
        getField "compliances" ns = getField "originalCompliances" ns) ∧
      getField "originalDetails" ns = callData.prop "details" ∧
      getField "details" ns = .arr ((callData.prop "details").elems.map (detailOf env)) ∧
      ((∀ d ∈ (callData.prop "details").elems,
          ∃ fs n, d = .obj fs ∧ n.natAbs ≤ maxExactInt ∧
            getField "OCE__DisplayOrder__c" fs = .num n) →
        getField "details" ns = getField "originalDetails" ns) := by
  have hwf' := hwf
  simp only [wellFormedBundle, Bool.and_eq_true] at hwf'
  obtain ⟨⟨⟨⟨⟨⟨⟨_, _⟩, _⟩, _⟩, hmsg⟩, hdis⟩, hcomp⟩, hdet⟩ := hwf'
  obtain ⟨ms, hms, -⟩ := isArrayOf_arr hmsg
  obtain ⟨ds, hds, -⟩ := isArrayOf_arr hdis
  obtain ⟨cs, hcs, -⟩ := isArrayOf_arr hcomp
  obtain ⟨ts, hts, -⟩ := isArrayOf_arr hdet
  have hitems : getField "items" (newStateOf env callData) =
      .arr ((callData.prop "items").elems.map (itemRecord env)) := rfl
  have hoitems : getField "originalItems" (newStateOf env callData) =
      jsonValue (.arr ((callData.prop "items").elems.map (itemRecord env))) := rfl
  have hmessages : getField "messages" (newStateOf env callData) =
      .arr ((callData.prop "messages").elems.map messageOf) := rfl
  have homessages : getField "originalMessages" (newStateOf env callData) =
      jsonValue (.arr ((callData.prop "messages").elems.map messageOf)) := rfl
  have hdiscussions : getField "discussions" (newStateOf env callData) =
      .arr ((callData.prop "discussions").elems.map discussionOf) := rfl
  have hodiscussions : getField "originalDiscussions" (newStateOf env callData) =
      jsonValue (.arr ((callData.prop "discussions").elems.map discussionOf)) := rfl
  have hcompliances : getField "compliances" (newStateOf env callData) =
      .arr ((callData.prop "compliances").elems.map complianceOf) := rfl
  have hocompliances : getField "originalCompliances" (newStateOf env callData) =
      jsonValue (.arr ((callData.prop "compliances").elems.map complianceOf)) := rfl
  have hdetails : getField "details" (newStateOf env callData) =
      .arr ((callData.prop "details").elems.map (detailOf env)) := rfl
  have hodetails : getField "originalDetails" (newStateOf env callData) =
      .arr (callData.prop "details").elems := rfl
  refine ⟨newStateOf env callData,
    initializeAsync_existing env id isNew callLayoutKey params callData hid hnew hfetch hwf,
    rfl, rfl, rfl, ?_, ?_, ?_, ?_, ?_, ?_, ?_, hdetails, ?_⟩
  · rw [hoitems, hitems]
  · rw [homessages, hmessages]
  · rw [hodiscussions, hdiscussions]
  · rw [hocompliances, hcompliances]
  · intro hj
    rw [hoitems]
    rw [hitems] at hj ⊢
    exact (jsonValue_of_isJson _ hj).symm
  · intro hj
    refine ⟨?_, ?_, ?_⟩
    · rw [homessages, hmessages, hms]
      refine (jsonValue_of_isJson _ ?_).symm
      simp only [isJson, Val.elems]
      exact isJsonArray_map messageOf isJson_messageOf ms
        (isJsonArray_of_bundle callData "messages" ms hj hms)
    · rw [hodiscussions, hdiscussions, hds]
      refine (jsonValue_of_isJson _ ?_).symm
      simp only [isJson, Val.elems]
      exact isJsonArray_map discussionOf isJson_discussionOf ds
        (isJsonArray_of_bundle callData "discussions" ds hj hds)
    · rw [hocompliances, hcompliances, hcs]
      refine (jsonValue_of_isJson _ ?_).symm
      simp only [isJson, Val.elems]
      exact isJsonArray_map complianceOf isJson_complianceOf cs
        (isJsonArray_of_bundle callData "compliances" cs hj hcs)
  · rw [hodetails, hts]
    rfl
  · intro hall
    rw [hdetails, hodetails]
    congr 1
    have hmap : ∀ xs : List Val,
        (∀ d ∈ xs, ∃ fs n, d = .obj fs ∧ n.natAbs ≤ maxExactInt ∧
          getField "OCE__DisplayOrder__c" fs = .num n) →
        xs.map (detailOf env) = xs := by
      intro xs
      induction xs with
      | nil => intro _; rfl
      | cons x xs ih =>
        intro h
        obtain ⟨fs, n, rfl, hle, hn⟩ := h x (List.mem_cons_self _ _)
        rw [List.map_cons, detailOf_fixed env fs n hle hn,
          ih (fun d hd => h d (List.mem_cons_of_mem _ hd))]
    exact hmap _ hall

/-! ### The call date validator -/

theorem valueOf_startOfDay (d : DateTime) (h : d.isValid = true) :
    d.startOfDay.valueOf = .num (d.zone.startOfDay d.day) := by
  simp [DateTime.startOfDay, DateTime.valueOf, h]

theorem validate_instants (formatRange : Val → Val) (M d : DateTime) (limit : Val)
    (hM : M.isValid = true) (hd : d.isValid = true) :
    CallDateValidator.validate formatRange ⟨.dateTime M, limit⟩ (.dateTime d) =
      .ok (if M.zone.startOfDay M.day < d.zone.startOfDay d.day then
        .obj [("type", .str "CallDateValidate"), ("message", formatRange limit)]
        else .null) := by
  simp only [CallDateValidator.validate, DateInput.truthy, DateInput.startOfDay,
    valueOf_startOfDay M hM, valueOf_startOfDay d hd, numGt, Bool.not_true]
  by_cases h : M.zone.startOfDay M.day < d.zone.startOfDay d.day <;> simp [h]

theorem validate_dateTime (formatRange : Val → Val) (M d : DateTime) (limit : Val)
    (hM : M.isValid = true) (hd : d.isValid = true) (hz : d.zone = M.zone) :
    CallDateValidator.validate formatRange ⟨.dateTime M, limit⟩ (.dateTime d) =
      .ok (if M.day < d.day then
        .obj [("type", .str "CallDateValidate"), ("message", formatRange limit)]
        else .null) := by
  rw [validate_instants formatRange M d limit hM hd, hz]
  by_cases h : M.day < d.day
  · rw [if_pos h, if_pos (M.zone.mono h)]
  · rw [if_neg h, if_neg (fun hlt => h (M.zone.mono.lt_iff_lt.mp hlt))]

theorem validate_invalid (formatRange : Val → Val) (M d : DateTime) (limit : Val)
    (h : M.isValid = false ∨ d.isValid = false) :
    CallDateValidator.validate formatRange ⟨.dateTime M, limit⟩ (.dateTime d) = .ok .null := by
  rcases h with h | h <;>
    cases hv : M.isValid <;> cases hw : d.isValid <;>
    simp_all [CallDateValidator.validate, DateInput.truthy, DateInput.startOfDay,
      DateTime.startOfDay, DateTime.valueOf, numGt]

/-- C11 as stated fails: a value on the calendar day of the maximum date, but
in a zone five hours west of UTC where the maximum date is nine hours east, is
rejected, because its day starts at a later instant. -/
theorem validate_rejects_same_day_in_other_zone :
    sampleOtherZone.isValid = true ∧ sampleMaxDate.isValid = true ∧
    sampleOtherZone.day = sampleMaxDate.day ∧
    CallDateValidator.validate (fun n => .arr [.str "within days", n])
      ⟨.dateTime sampleMaxDate, .num 7⟩ (.dateTime sampleOtherZone) =
      .ok (.obj [("type", .str "CallDateValidate"),
        ("message", .arr [.str "within days", .num 7])]) :=
  ⟨rfl, rfl, rfl, rfl⟩

/-- C11, amended.  For a validator built with a maximum date `M`: `validate`
returns null for an absent (falsy) value.  For a valid date `d` and a valid
`M` it returns an error object of type `CallDateValidate` exactly when the day
of `d` starts at a later instant than the day of `M`, and null otherwise; when
`d` is in the time zone of `M` that is exactly when the calendar day of `d` is
strictly after the calendar day of `M`, so that a `d` on the day of `M` is
accepted whatever its time of day, also when that is later than the time of
`M`.  When `d` or `M` is an invalid date it returns null. -/
theorem validate_compares_calendar_days (formatRange : Val → Val) (M d : DateTime)
    (limit : Val) :
    (∀ v : Val, v.truthy = false →
      CallDateValidator.validate formatRange ⟨.dateTime M, limit⟩ (.value v) = .ok .null) ∧
    (M.isValid = true → d.isValid = true →
      CallDateValidator.validate formatRange ⟨.dateTime M, limit⟩ (.dateTime d) =
        .ok (if M.zone.startOfDay M.day < d.zone.startOfDay d.day then
          .obj [("type", .str "CallDateValidate"), ("message", formatRange limit)]
          else .null)) ∧
    (M.isValid = true → d.isValid = true → d.zone = M.zone →
      ((∃ e, CallDateValidator.validate formatRange ⟨.dateTime M, limit⟩ (.dateTime d) =
            .ok e ∧ e.prop "type" = .str "CallDateValidate") ↔ M.day < d.day) ∧
      (CallDateValidator.validate formatRange ⟨.dateTime M, limit⟩ (.dateTime d) = .ok .null ↔
        ¬ M.day < d.day) ∧
      (M.day < d.day →
        CallDateValidator.validate formatRange ⟨.dateTime M, limit⟩ (.dateTime d) =
          .ok (.obj [("type", .str "CallDateValidate"), ("message", formatRange limit)])) ∧
      (d.day = M.day →
        CallDateValidator.validate formatRange ⟨.dateTime M, limit⟩ (.dateTime d) =
          .ok .null)) ∧
    (M.isValid = false ∨ d.isValid = false →
      CallDateValidator.validate formatRange ⟨.dateTime M, limit⟩ (.dateTime d) =
        .ok .null) := by
  refine ⟨?_, validate_instants formatRange M d limit, ?_,
    validate_invalid formatRange M d limit⟩
  · intro v hfalsy
    simp [CallDateValidator.validate, DateInput.truthy, hfalsy]
  · intro hM hd hz
    have hv := validate_dateTime formatRange M d limit hM hd hz
    refine ⟨?_, ?_, ?_, ?_⟩
    · constructor
      · rintro ⟨e, he, htype⟩
        by_contra hnot
        rw [hv, if_neg hnot] at he
        injection he with he
        rw [← he] at htype
        simp [Val.prop] at htype
      · intro hlt
        refine ⟨.obj [("type", .str "CallDateValidate"), ("message", formatRange limit)],
          ?_, rfl⟩
        rw [hv, if_pos hlt]
    · constructor
      · intro hnull hlt
        rw [hv, if_pos hlt] at hnull
        injection hnull with hnull
        cases hnull
      · intro hnot
        rw [hv, if_neg hnot]
    · intro hlt
      rw [hv, if_pos hlt]
    · intro heq
      rw [hv, if_neg (by omega)]

/-- Witness of the amended C11: on the day of the maximum date, at 23:00
against 10:00 and in its zone, the value is accepted; on the next day it is
rejected. -/
theorem validate_compares_calendar_days_witness :
    (sampleMaxDate.isValid = true ∧ sampleSameDayLater.isValid = true ∧
      sampleSameDayLater.zone = sampleMaxDate.zone ∧
      sampleMaxDate.millisOfDay < sampleSameDayLater.millisOfDay ∧
      CallDateValidator.validate (fun n => .arr [.str "within days", n])
        ⟨.dateTime sampleMaxDate, .num 7⟩ (.dateTime sampleSameDayLater) = .ok .null) ∧
    (sampleNextDay.isValid = true ∧ sampleNextDay.zone = sampleMaxDate.zone ∧
      CallDateValidator.validate (fun n => .arr [.str "within days", n])
        ⟨.dateTime sampleMaxDate, .num 7⟩ (.dateTime sampleNextDay) =
        .ok (.obj [("type", .str "CallDateValidate"),
          ("message", .arr [.str "within days", .num 7])])) :=
  ⟨⟨rfl, rfl, rfl, by decide,
      ((validate_compares_calendar_days (fun n => .arr [.str "within days", n]) sampleMaxDate
        sampleSameDayLater (.num 7)).2.2.1 rfl rfl rfl).2.2.2 rfl⟩,
    ⟨rfl, rfl,
      ((validate_compares_calendar_days (fun n => .arr [.str "within days", n]) sampleMaxDate
        sampleNextDay (.num 7)).2.2.1 rfl rfl rfl).2.2.1 (by decide)⟩⟩

end CallBasicContext
